import Mathlib

/-!
Verification of the BIS-Toolkit decode engines.

This file gives a shallow embedding, in Lean, of the decoders of the
repository (the LZSS, LZO1X and chained-LZ4 byte-stream decompressors and
the BC1/BC3/BC4/BC7 block-texture decoders), together with theorems that
settle the specification claims about them.

Conventions of the embedding:
* JavaScript numbers are modelled as `Nat` where the source only ever holds
  nonnegative integers, and as `Int` where the source can hold negative
  values (cursors computed by subtraction, 32-bit signed results).
  The JavaScript operators `| 0`, `<<`, `|` on 32-bit values are modelled by
  explicit wrapping helpers (`jsToInt32`, `jsShl32`, `jsOr32`).
* `Uint8Array`/`Buffer` values are `List Nat` (one element per byte).
  A JavaScript typed-array store at an out-of-range index is silently
  dropped, which is exactly the behaviour of `List.set`.
* A read of an array slot that was never assigned yields `undefined` in
  JavaScript; where that behaviour is observable (the LZSS ring buffer) the
  slots are modelled as `Option Nat` and `undefined` as `none`.  Where it is
  not observable for any claim (reads past the end of LZO/LZ4 input, which
  only happens on truncated input) the model reads a default `0`.
* `DataView` accessors throw a `RangeError` on an out-of-range read; they
  are modelled with `Except`.
-/

/-! ## JavaScript numeric helpers -/

/-- JavaScript `x | 0` (ToInt32): wrap an integer to the range
`[-2^31, 2^31)`. -/
def jsToInt32 (x : Int) : Int := (x + 2 ^ 31) % 2 ^ 32 - 2 ^ 31

/-- JavaScript unsigned 32-bit view of an integer, used by the bitwise
operators. -/
def jsToUInt32 (x : Int) : Nat := (x % 2 ^ 32).toNat

/-- JavaScript `a << b` on numbers: a 32-bit shift producing a signed
32-bit result. -/
def jsShl32 (a : Int) (b : Nat) : Int := jsToInt32 (a * 2 ^ (b % 32))

/-- JavaScript `a | b` on numbers: bitwise or of the 32-bit views, with a
signed 32-bit result. -/
def jsOr32 (a b : Int) : Int := jsToInt32 (jsToUInt32 a ||| jsToUInt32 b)

/-- JavaScript `c << 24 >> 24`: sign-extend the low byte. -/
def lzssSignExtendByte (c : Nat) : Int := if c < 128 then (c : Int) else (c : Int) - 256

/-- Model of `DataView.getInt32(pos, true)` over a byte list: a little-endian
signed 32-bit read, raising a `RangeError` when out of range. -/
def readInt32LE (input : List Nat) (pos : Nat) : Except String Int :=
  if pos + 4 ≤ input.length then
    .ok (jsToInt32 ((input.getD pos 0) + 2 ^ 8 * input.getD (pos + 1) 0 +
      2 ^ 16 * input.getD (pos + 2) 0 + 2 ^ 24 * input.getD (pos + 3) 0))
  else .error "RangeError"

/-! ## LZSS decompressor (packages/utils/src/Lzss.ts) -/

def lzssN : Nat := 4096

def lzssF : Nat := 18

def lzssTHRESHOLD : Nat := 2

/-- The initialization loop `for (let i = 0; i < r; i++) buffer[i] = 0x20`
over the ring buffer.  Cells never assigned stay `none` (`undefined`). -/
def lzssRingInitLoop : Nat → (Nat → Option Nat) → (Nat → Option Nat)
  | 0, b => b
  | i + 1, b => lzssRingInitLoop i (fun j => if j = i then some 0x20 else b j)

/-- The ring buffer of `lzssDecompress` right after its initialization:
`new Array(N + F - 1)` with cells `0 .. r-1` set to the space character and
every other cell still unassigned.  Stated in closed form for efficient
evaluation; `lzssRingInit_eq_loop` below proves it equal to the source's
fill loop. -/
def lzssRingInit : Nat → Option Nat := fun j =>
  if j < lzssN - lzssF then some 0x20 else none

/-- JavaScript `ii & (N - 1)` where `ii` may be a negative 32-bit value. -/
def lzssRingIdx (ii : Int) : Nat := (ii % 4096).toNat

/-- One checksum accumulation step `calculatedChecksum =
(calculatedChecksum + (useSignedChecksum ? (c << 24 >> 24) : c)) | 0`.
When `c` is `undefined` (`none`), the unsigned sum is `NaN` and `NaN | 0`
is `0`, while the signed variant first coerces `undefined` to `0` via the
shifts. -/
def lzssChecksumUpdate (signed : Bool) (chk : Int) (c : Option Nat) : Int :=
  match c with
  | some v => jsToInt32 (chk + (if signed then lzssSignExtendByte v else (v : Int)))
  | none => if signed then jsToInt32 (chk + 0) else 0

structure LzssState where
  ring : Nat → Option Nat
  dst : List Nat
  iDst : Nat
  remaining : Int
  chk : Int
  r : Nat
  flags : Nat
  inPos : Nat

/-- The back-reference copy loop `for (; ii <= jj; ii++) ...`, which runs
exactly `length + 1` times. -/
def lzssMatchCopy (signed : Bool) : Nat → LzssState → Int → LzssState
  | 0, st, _ => st
  | n + 1, st, ii =>
    let c := st.ring (lzssRingIdx ii)
    let chk := lzssChecksumUpdate signed st.chk c
    let dst := st.dst.set st.iDst (c.getD 0)
    let ring := fun j => if j = st.r then c else st.ring j
    lzssMatchCopy signed n
      { st with
        ring := ring
        dst := dst
        iDst := st.iDst + 1
        remaining := st.remaining - 1
        chk := chk
        r := (st.r + 1) &&& (lzssN - 1) }
      (ii + 1)

/-- The main `while (expectedSize > 0)` loop of `lzssDecompress`.  Each
iteration produces at least one output byte, so a fuel of `expectedSize`
iterations is enough and the fuel-exhaustion branch is unreachable. -/
def lzssLoop (input : List Nat) (signed : Bool) : Nat → LzssState →
    Except String (List Nat × Nat × Int)
  | 0, st =>
    if st.remaining ≤ 0 then .ok (st.dst, st.inPos, st.chk) else .error "fuel"
  | fuel + 1, st =>
    if st.remaining ≤ 0 then .ok (st.dst, st.inPos, st.chk)
    else
      let flags0 := st.flags >>> 1
      let refill := flags0 &&& 256 = 0
      let flags := if refill then ((input.get? st.inPos).getD 0) ||| 0xff00 else flags0
      let inPos := if refill then st.inPos + 1 else st.inPos
      if flags &&& 1 ≠ 0 then
        let c := input.get? inPos
        let chk := lzssChecksumUpdate signed st.chk c
        let dst := st.dst.set st.iDst (c.getD 0)
        let ring := fun j => if j = st.r then c else st.ring j
        lzssLoop input signed fuel
          { ring := ring
            dst := dst
            iDst := st.iDst + 1
            remaining := st.remaining - 1
            chk := chk
            r := (st.r + 1) &&& (lzssN - 1)
            flags := flags
            inPos := inPos + 1 }
      else
        let i := (input.get? inPos).getD 0
        let j := (input.get? (inPos + 1)).getD 0
        let offset := i ||| ((j &&& 0xf0) <<< 4)
        let len := (j &&& 0x0f) + lzssTHRESHOLD
        if ((len : Int) + 1 > st.remaining + (len : Int) - (lzssTHRESHOLD : Int)) then
          .error "LZSS overflow"
        else
          let st1 := lzssMatchCopy signed (len + 1)
            { st with flags := flags, inPos := inPos + 2 } ((st.r : Int) - (offset : Int))
          lzssLoop input signed fuel st1

/-- The decode loop of `lzssDecompress` from its initial state, returning
the output bytes, the input position after the last token, and the running
checksum. -/
def lzssRun (input : List Nat) (inputOffset : Nat) (expectedSize : Int) (signed : Bool) :
    Except String (List Nat × Nat × Int) :=
  lzssLoop input signed (expectedSize.toNat + 1)
    { ring := lzssRingInit, dst := List.replicate expectedSize.toNat 0, iDst := 0,
      remaining := expectedSize, chk := 0, r := lzssN - lzssF, flags := 0,
      inPos := inputOffset }

/-- `lzssDecompress(input, inputOffset, expectedSize, useSignedChecksum)`.
Note that `new Uint8Array(expectedSize)` runs before the `expectedSize <= 0`
early return and throws a `RangeError` for a negative size. -/
def lzssDecompress (input : List Nat) (inputOffset : Nat) (expectedSize : Int)
    (useSignedChecksum : Bool) : Except String (List Nat × Nat) :=
  if expectedSize < 0 then .error "RangeError: invalid typed array length"
  else if expectedSize ≤ 0 then .ok ([], 0)
  else
    match lzssRun input inputOffset expectedSize useSignedChecksum with
    | .error e => .error e
    | .ok (dst, pos, chk) =>
      match readInt32LE input pos with
      | .error e => .error e
      | .ok stored =>
        if stored ≠ chk then .error "Checksum mismatch"
        else .ok (dst, pos + 4 - inputOffset)

/-- The checksum described by the specification: a plain byte-sum (signed or
unsigned, with 32-bit wrap) over the produced output bytes. -/
def lzssClaimChecksum (signed : Bool) (bytes : List Nat) : Int :=
  bytes.foldl (fun acc c =>
    jsToInt32 (acc + (if signed then lzssSignExtendByte c else (c : Int)))) 0

theorem lzssRingInitLoop_ge (n : Nat) (b : Nat → Option Nat) (j : Nat) (h : n ≤ j) :
    lzssRingInitLoop n b j = b j := by
  induction n generalizing b with
  | zero => rfl
  | succ k ih =>
    simp only [lzssRingInitLoop]
    rw [ih _ (by omega)]
    simp only [if_neg (by omega : ¬ j = k)]

theorem lzssRingInitLoop_lt (n : Nat) (b : Nat → Option Nat) (j : Nat) (h : j < n) :
    lzssRingInitLoop n b j = some 0x20 := by
  induction n generalizing b with
  | zero => omega
  | succ k ih =>
    simp only [lzssRingInitLoop]
    by_cases hj : j < k
    · exact ih _ hj
    · have hjk : j = k := by omega
      rw [lzssRingInitLoop_ge k _ j (by omega)]
      simp [hjk]

/-- The closed-form initial ring buffer is exactly the result of the
source's initialization loop over a fresh unassigned array. -/
theorem lzssRingInit_eq_loop :
    lzssRingInit = lzssRingInitLoop (lzssN - lzssF) (fun _ => none) := by
  funext j
  by_cases h : j < lzssN - lzssF
  · rw [lzssRingInitLoop_lt _ _ _ h]
    simp [lzssRingInit, h]
  · rw [lzssRingInitLoop_ge _ _ _ (by omega)]
    simp [lzssRingInit, h]

/-! ## Claim C3 (LZSS checksum gate) -/

/-- Claim C3, counterexample.  The claim says that whenever the trailing
4-byte checksum differs from the byte-sum of the produced output bytes the
decoder must fail.  On this input the decoder emits the literal `65`
followed by three bytes read from never-assigned ring-buffer cells
(`undefined`): each such read resets the running accumulator to `0`
(`NaN | 0`), so the decoder accepts a stored checksum of `0` even though
the byte-sum of the output is `65`. -/
theorem c3_counterexample :
    lzssDecompress [1, 65, 0, 0, 0, 0, 0, 0] 0 4 false = .ok ([65, 0, 0, 0], 8) ∧
    readInt32LE [1, 65, 0, 0, 0, 0, 0, 0] 4 = .ok 0 ∧
    lzssClaimChecksum false [65, 0, 0, 0] = 65 := by
  refine ⟨?_, ?_, ?_⟩ <;> rfl

/-- Claim C3, amended: for every input on which the decode loop completes
and the trailing 4-byte little-endian signed checksum can be read, if the
stored checksum differs from the checksum accumulated by the decoder
(signed or unsigned byte-sum with 32-bit wrap, where in unsigned mode a
byte produced from an unassigned ring-buffer cell resets the accumulator
to 0), `lzssDecompress` raises a checksum-mismatch error and returns no
output at all; it returns the decoded bytes and the total number of input
bytes consumed exactly when the two checksums are equal. -/
theorem c3_amended (input : List Nat) (off : Nat) (sz : Int) (signed : Bool)
    (dst : List Nat) (pos : Nat) (chk stored : Int)
    (hsz : 0 < sz)
    (hrun : lzssRun input off sz signed = .ok (dst, pos, chk))
    (hread : readInt32LE input pos = .ok stored) :
    (stored ≠ chk → lzssDecompress input off sz signed = .error "Checksum mismatch") ∧
    (stored = chk → lzssDecompress input off sz signed = .ok (dst, pos + 4 - off)) := by
  have h1 : ¬ (sz < 0) := by omega
  have h2 : ¬ (sz ≤ 0) := by omega
  constructor <;> intro h <;> simp [lzssDecompress, h1, h2, hrun, hread, h]

/-- Witness for `c3_amended` at a concrete mismatching input: a single
literal byte `65` followed by a stored checksum of `0`. -/
theorem c3_witness :
    lzssDecompress [1, 65, 0, 0, 0, 0] 0 1 false = .error "Checksum mismatch" :=
  (c3_amended [1, 65, 0, 0, 0, 0] 0 1 false [65] 2 65 0 (by decide)
    (by rfl) (by rfl)).1 (by decide)

/-! ## Claim C8 (LZSS ring-buffer initialization) -/

/-- Claim C8, counterexample.  The claim says every ring-buffer cell holds
`0x20` at the start of the call and that back-references reading
not-yet-written cells read `0x20`.  In fact the initialization loop only
fills cells `0 .. N-F-1 = 0 .. 4077`; cell `4078` (and every later cell) is
still unassigned.  A first-token back-reference with offset `0` reads cells
`4078`-`4080` and produces the byte `0`, not `0x20` (with output `[32,32,32]`
the running checksum would have been `96` and this input would have been
rejected). -/
theorem c8_counterexample :
    lzssRingInit (lzssN - lzssF) = none ∧
    lzssDecompress [0, 0, 0, 0, 0, 0, 0] 0 3 false = .ok ([0, 0, 0], 7) := by
  constructor <;> rfl

/-- Claim C8, amended: at the start of every `lzssDecompress` call the ring
buffer holds the space character `0x20` in every cell with index below
`N - F = 4078` (the initial value of the write cursor `r`), while all cells
from index `4078` on are unassigned, so a back-reference that reads a
not-yet-written cell reads `0x20` only when the cell index is below `4078`
and otherwise reads the unassigned (`undefined`) value, which is emitted as
the output byte `0`. -/
theorem c8_amended :
    (∀ i, i < lzssN - lzssF → lzssRingInit i = some 0x20) ∧
    (∀ i, lzssN - lzssF ≤ i → lzssRingInit i = none) ∧
    lzssN - lzssF = 4078 := by
  refine ⟨?_, ?_, rfl⟩
  · intro i hi
    simp [lzssRingInit, hi]
  · intro i hi
    simp [lzssRingInit]
    omega

/-- Witness for `c8_amended` at concrete cells `0` and `4078`. -/
theorem c8_witness :
    lzssRingInit 0 = some 0x20 ∧ lzssRingInit 4078 = none :=
  ⟨c8_amended.1 0 (by decide), c8_amended.2.1 4078 (by decide)⟩

/-! ## Claim C10 (LZSS nonpositive expected size) -/

/-- Claim C10, counterexample.  The claim says that for every
`expectedSize <= 0` the function returns an empty array with
`bytesRead = 0`.  For a negative size the allocation
`new Uint8Array(expectedSize)` on the line before the early-return check
throws a `RangeError` instead. -/
theorem c10_counterexample :
    lzssDecompress [] 0 (-1) false = .error "RangeError: invalid typed array length" := by
  rfl

/-- Claim C10, amended: for every input buffer, input offset and checksum
mode, if the caller-declared `expectedSize` is exactly `0` then
`lzssDecompress` returns an empty data array with `bytesRead = 0`,
consuming no input and never reading or validating the trailing checksum;
if `expectedSize` is negative, the `new Uint8Array(expectedSize)`
allocation (which runs before the early-return check) raises a
`RangeError`. -/
theorem c10_amended (input : List Nat) (off : Nat) (mode : Bool) (sz : Int) :
    (sz = 0 → lzssDecompress input off sz mode = .ok ([], 0)) ∧
    (sz < 0 → lzssDecompress input off sz mode = .error "RangeError: invalid typed array length") := by
  constructor
  · intro h
    unfold lzssDecompress
    rw [if_neg (by omega), if_pos (by omega)]
  · intro h
    unfold lzssDecompress
    rw [if_pos h]

/-- Witness for `c10_amended` at a concrete input. -/
theorem c10_witness :
    lzssDecompress [9, 9] 1 0 true = .ok ([], 0) ∧
    lzssDecompress [9, 9] 1 (-3) true = .error "RangeError: invalid typed array length" :=
  ⟨(c10_amended [9, 9] 1 true 0).1 rfl, (c10_amended [9, 9] 1 true (-3)).2 (by decide)⟩

/-! ## LZ4 chain decompressor (packages/utils/src/Lz4.ts, BinaryReader.ts) -/

/-- JavaScript read `l[i]` from a typed array at a possibly negative index,
coerced to a byte on store (`undefined` and out-of-range reads become 0). -/
def jsArrGet (l : List Nat) (i : Int) : Nat :=
  if 0 ≤ i ∧ i < (l.length : Int) then l.getD i.toNat 0 else 0

/-- Little-endian 32-bit value at `i` (the value `DataView.getUint32`
assembles). -/
def u32At (l : List Nat) (i : Nat) : Nat :=
  l.getD i 0 + 2 ^ 8 * l.getD (i + 1) 0 + 2 ^ 16 * l.getD (i + 2) 0 +
    2 ^ 24 * l.getD (i + 3) 0

/-- `BinaryReader.readUInt32`: little-endian, advances 4 bytes, throws a
`RangeError` when out of range. -/
def readUInt32R (l : List Nat) (pos : Nat) : Except String (Nat × Nat) :=
  if pos + 4 ≤ l.length then .ok (u32At l pos, pos + 4) else .error "RangeError"

/-- `BinaryReader.readInt24`: `b1 | (b2 << 8) | (b3 << 16)`, advances 3
bytes. -/
def readInt24R (l : List Nat) (pos : Nat) : Except String (Nat × Nat) :=
  if pos + 3 ≤ l.length then
    .ok (l.getD pos 0 ||| (l.getD (pos + 1) 0 <<< 8) ||| (l.getD (pos + 2) 0 <<< 16), pos + 3)
  else .error "RangeError"

/-- `BinaryReader.readByte`, advances 1 byte. -/
def readByteR (l : List Nat) (pos : Nat) : Except String (Nat × Nat) :=
  if pos + 1 ≤ l.length then .ok (l.getD pos 0, pos + 1) else .error "RangeError"

/-- `BinaryReader.readBytes(count)`: `subarray` clamps to the buffer bounds
and never throws; the position advances by `count` regardless. -/
def readBytesR (l : List Nat) (pos count : Nat) : List Nat × Nat :=
  ((l.drop pos).take count, pos + count)

/-- `Uint8Array.set(seg, i)` on a buffer where the segment fits. -/
def setSegment (l : List Nat) (i : Nat) (seg : List Nat) : List Nat :=
  l.take i ++ seg ++ l.drop (i + seg.length)

/-- The `do { len = compressed[src++]; acc += len; } while (len === 255 &&
src < compressed.length)` extension-length loop of the LZ4 block decoder.
The fuel is at least `compressed.length + 1`, which the strictly increasing
`src` can never exhaust. -/
def lz4ReadLen (cmp : List Nat) : Nat → Nat → Nat → Nat × Nat
  | 0, src, acc => (acc, src)
  | fuel + 1, src, acc =>
    let len := cmp.getD src 0
    let acc := acc + len
    if len = 255 ∧ src + 1 < cmp.length then lz4ReadLen cmp fuel (src + 1) acc
    else (acc, src + 1)

/-- The match-copy loop of `decompressLz4BlockWithDict`
(`for (let i = 0; i < matchLength; i++) ...`): each copied byte comes from
the output produced so far when `output.length - offset >= 0` and from the
dictionary at `dictSize + (output.length - offset)` otherwise. -/
def lz4CopyMatch (dict : List Nat) (dictSize offset : Nat) : List Nat → Nat → List Nat
  | output, 0 => output
  | output, n + 1 =>
    let backPos : Int := (output.length : Int) - (offset : Int)
    let b := if 0 ≤ backPos then jsArrGet output backPos
             else jsArrGet dict ((dictSize : Int) + backPos)
    lz4CopyMatch dict dictSize offset (output ++ [b]) n

/-- The per-match step of `decompressLz4BlockWithDict`: the two offset
validity checks followed by the copy loop. -/
def lz4MatchStep (dict : List Nat) (dictSize : Nat) (output : List Nat)
    (offset matchLength : Nat) : Except String (List Nat) :=
  if offset = 0 then .error "Invalid LZ4 offset"
  else if dictSize + output.length < offset then .error "Invalid LZ4 offset"
  else .ok (lz4CopyMatch dict dictSize offset output matchLength)

/-- The token loop of `decompressLz4BlockWithDict`.  Every iteration
consumes at least the token byte, so `compressed.length + 1` fuel is never
exhausted. -/
def lz4Loop (cmp dict : List Nat) (dictSize : Nat) : Nat → Nat → List Nat →
    Except String (List Nat)
  | 0, _, _ => .error "fuel"
  | fuel + 1, src, output =>
    if src < cmp.length then
      let token := cmp.getD src 0
      let src := src + 1
      let lit0 := token >>> 4
      let ext1 := if lit0 = 15 then lz4ReadLen cmp (cmp.length + 1) src lit0 else (lit0, src)
      let literalLength := ext1.1
      let src := ext1.2
      let output := output ++ (List.range literalLength).map (fun i => cmp.getD (src + i) 0)
      let src := src + literalLength
      if cmp.length ≤ src then .ok output
      else
        let offset := cmp.getD src 0 ||| ((cmp.getD (src + 1) 0) <<< 8)
        let src := src + 2
        let m0 := token &&& 0x0f
        let ext2 := if m0 = 15 then lz4ReadLen cmp (cmp.length + 1) src m0 else (m0, src)
        let matchLength := ext2.1 + 4
        let src := ext2.2
        match lz4MatchStep dict dictSize output offset matchLength with
        | .error e => .error e
        | .ok output => lz4Loop cmp dict dictSize fuel src output
    else .ok output

/-- `decompressLz4BlockWithDict(compressed, dict, dictSize)`. -/
def decompressLz4BlockWithDict (cmp dict : List Nat) (dictSize : Nat) :
    Except String (List Nat) :=
  lz4Loop cmp dict dictSize (cmp.length + 1) 0 []

def lz4BlockSize : Nat := 65536

/-- The chunk loop of `decompressLz4Block`: reads `(int24 size, byte flags,
payload)` chunks, decodes each against the carried dictionary, writes into
the target buffer and updates the dictionary, until a chunk with bit 7 of
its flags set.  Every chunk consumes at least 4 input bytes, so
`buf.length + 1` fuel is never exhausted. -/
def lz4ChunkLoop (buf : List Nat) : Nat → Nat → List Nat → Nat → List Nat → Nat →
    Except String (List Nat × Nat × Nat)
  | 0, _, _, _, _, _ => .error "fuel"
  | fuel + 1, pos, target, targetIdx, dict, dictSize =>
    match readInt24R buf pos with
    | .error e => .error e
    | .ok (compressedSize, pos) =>
      match readByteR buf pos with
      | .error e => .error e
      | .ok (flags, pos) =>
        if flags &&& 0x7f ≠ 0 then .error "Unknown LZ4 flags"
        else
          let rb := readBytesR buf pos compressedSize
          let compressed := rb.1
          let pos := rb.2
          match decompressLz4BlockWithDict compressed dict dictSize with
          | .error e => .error e
          | .ok decoded =>
            if target.length < targetIdx + decoded.length then
              .error "Decoded LZ4 data overruns target buffer"
            else
              let target := setSegment target targetIdx decoded
              let targetIdx := targetIdx + decoded.length
              let upd :=
                if lz4BlockSize ≤ decoded.length then
                  (decoded.drop (decoded.length - lz4BlockSize), lz4BlockSize)
                else
                  let available := lz4BlockSize - dictSize
                  if decoded.length ≤ available then
                    (setSegment dict dictSize decoded, dictSize + decoded.length)
                  else
                    let shift := decoded.length - available
                    let shifted := dict.drop shift ++ dict.drop (lz4BlockSize - shift)
                    (setSegment shifted (lz4BlockSize - decoded.length) decoded, lz4BlockSize)
              if flags &&& 0x80 ≠ 0 then .ok (target, targetIdx, pos)
              else lz4ChunkLoop buf fuel pos target targetIdx upd.1 upd.2

/-- `decompressLz4Block(reader, declaredSize)` with the reader modelled as
a buffer plus a starting position; returns the decoded target buffer and
the final reader position. -/
def decompressLz4Block (buf : List Nat) (pos declaredSize : Nat) :
    Except String (List Nat × Nat) :=
  let startPos := pos
  match readUInt32R buf pos with
  | .error e => .error e
  | .ok (targetSize, pos) =>
    let target := List.replicate targetSize 0
    let dict := List.replicate lz4BlockSize 0
    match lz4ChunkLoop buf (buf.length + 1) pos target 0 dict 0 with
    | .error e => .error e
    | .ok (target, targetIdx, pos) =>
      if startPos + declaredSize ≠ pos then .error "LZ4 block length mismatch"
      else if targetIdx ≠ targetSize then .error "LZ4 decoded size mismatch"
      else .ok (target, pos)

/-! ## Claim C2 (LZ4 match back-reference resolution) -/

/-- Claim C2: in the LZ4 chain decoder, a match with back-reference offset
`d` raises an error when `d = 0` or `d` exceeds `dictSize` plus the number
of output bytes already produced, and otherwise copies byte by byte, each
byte taken from `output[output.length - d]` when that index is
nonnegative (so self-overlapping copies read bytes they just wrote) and
from `dict[dictSize + (output.length - d)]` otherwise. -/
theorem c2_theorem (dict : List Nat) (dictSize : Nat) (output : List Nat)
    (offset matchLength : Nat) (hds : dictSize ≤ dict.length) :
    ((offset = 0 ∨ dictSize + output.length < offset) →
      lz4MatchStep dict dictSize output offset matchLength = .error "Invalid LZ4 offset") ∧
    (1 ≤ offset → offset ≤ dictSize + output.length →
      lz4MatchStep dict dictSize output offset matchLength =
        .ok (lz4CopyMatch dict dictSize offset output matchLength)) ∧
    (∀ out2 n, 1 ≤ offset → offset ≤ dictSize + out2.length →
      lz4CopyMatch dict dictSize offset out2 (n + 1) =
        lz4CopyMatch dict dictSize offset
          (out2 ++ [if offset ≤ out2.length then out2.getD (out2.length - offset) 0
                    else dict.getD (dictSize + out2.length - offset) 0]) n) := by
  refine ⟨?_, ?_, ?_⟩
  · rintro (h | h)
    · rw [lz4MatchStep, if_pos h]
    · rw [lz4MatchStep, if_neg (by omega), if_pos (by omega)]
  · intro h1 h2
    rw [lz4MatchStep, if_neg (by omega), if_neg (by omega)]
  · intro out2 n h1 h2
    have hbyte : (if (0 : Int) ≤ (out2.length : Int) - (offset : Int)
        then jsArrGet out2 ((out2.length : Int) - (offset : Int))
        else jsArrGet dict ((dictSize : Int) + ((out2.length : Int) - (offset : Int)))) =
        (if offset ≤ out2.length then out2.getD (out2.length - offset) 0
         else dict.getD (dictSize + out2.length - offset) 0) := by
      by_cases hc : offset ≤ out2.length
      · rw [if_pos (by omega), if_pos hc]
        unfold jsArrGet
        rw [if_pos (by constructor <;> omega)]
        congr 1
        omega
      · rw [if_neg (by omega), if_neg hc]
        unfold jsArrGet
        rw [if_pos (by constructor <;> omega)]
        congr 1
        omega
    simp only [lz4CopyMatch]
    rw [hbyte]

/-- Witness for `c2_theorem` at concrete inputs: dictionary `[7,8,9]` of
size 3, empty output, offsets `2` (valid) and `0` (invalid). -/
theorem c2_witness :
    lz4MatchStep [7, 8, 9] 3 [] 2 2 = .ok (lz4CopyMatch [7, 8, 9] 3 2 [] 2) ∧
    lz4MatchStep [7, 8, 9] 3 [] 0 1 = .error "Invalid LZ4 offset" :=
  ⟨(c2_theorem [7, 8, 9] 3 [] 2 2 (by decide)).2.1 (by decide) (by decide),
   (c2_theorem [7, 8, 9] 3 [] 0 1 (by decide)).1 (Or.inl rfl)⟩

/-! ## LZO1X decompressor (packages/utils/src/Lzo.ts)

The `LZO` class keeps its cursors in private mutable fields; they are
modelled as an explicit state record.  The output `Uint8Array` is grown by
`_extendBuffer` before every write, so capacity is not observable; the
output is modelled as a total function from (possibly negative) indices to
bytes, defaulting to `0` (unwritten cells of a `Uint8Array` read `0`, and a
read at a negative index yields `undefined`, which is coerced to `0` when
stored back).  The fuel arguments bound the work of loops that JavaScript
only exits for well-formed input; exhausting them models divergence on
malformed input and is unreachable for any input accepted by the decoder.
-/

structure LzoState where
  out : Int → Nat
  op : Nat
  ip : Nat
  t : Nat
  mp : Int

/-- Read `this._buffer[i]` at a nonnegative index (`undefined` past the
end behaves as `0` in every context this decoder stores or masks it). -/
def lzoIn (buf : List Nat) (i : Nat) : Nat := buf.getD i 0

/-- `this._out[this._outputPointer++] = v`. -/
def lzoPush (st : LzoState) (v : Nat) : LzoState :=
  { st with out := fun j => if j = (st.op : Int) then v else st.out j, op := st.op + 1 }

/-- `_matchNext`: copy 1-3 literal bytes according to `t`, then load the
next control byte into `t`. -/
def lzoMatchNext (buf : List Nat) (st0 : LzoState) : LzoState :=
  let st1 := { (lzoPush st0 (lzoIn buf st0.ip)) with ip := st0.ip + 1 }
  let st2 := if 1 < st0.t then { (lzoPush st1 (lzoIn buf st1.ip)) with ip := st1.ip + 1 } else st1
  let st3 := if 2 < st0.t then { (lzoPush st2 (lzoIn buf st2.ip)) with ip := st2.ip + 1 } else st2
  { st3 with t := lzoIn buf st3.ip, ip := st3.ip + 1 }

/-- `_matchDone`: `t = buffer[ip - 2] & 3`. -/
def lzoMatchDone (buf : List Nat) (st : LzoState) : LzoState :=
  { st with t := jsArrGet buf ((st.ip : Int) - 2) &&& 3 }

/-- The copy kernel of `_copyMatch`: `out[op++] = out[mp++]`, `n` times. -/
def lzoCopyMatchLoop : Nat → LzoState → LzoState
  | 0, st => st
  | n + 1, st => lzoCopyMatchLoop n { (lzoPush st (st.out st.mp)) with mp := st.mp + 1 }

/-- `_copyMatch`: `t += 2` then the do-while copy, which runs `t + 2`
times and leaves `t = 0`. -/
def lzoCopyMatch (st : LzoState) : LzoState :=
  { (lzoCopyMatchLoop (st.t + 2) st) with t := 0 }

/-- The copy kernel of `_copyFromBuffer`: `out[op++] = buffer[ip++]`,
`n` times. -/
def lzoCopyBufLoop (buf : List Nat) : Nat → LzoState → LzoState
  | 0, st => st
  | n + 1, st =>
    lzoCopyBufLoop buf n { (lzoPush st (lzoIn buf st.ip)) with ip := st.ip + 1 }

/-- `_copyFromBuffer`: a do-while copy of `t` bytes (at least one). -/
def lzoCopyFromBuffer (buf : List Nat) (st : LzoState) : LzoState :=
  { (lzoCopyBufLoop buf (if st.t = 0 then 1 else st.t) st) with t := 0 }

/-- `while (buffer[ip] === 0) { t += 255; ip++; }` (an out-of-range read
yields `undefined`, which is not `=== 0`, ending the loop). -/
def lzoSkipZeros (buf : List Nat) : Nat → LzoState → LzoState
  | 0, st => st
  | fuel + 1, st =>
    if buf.get? st.ip = some 0 then
      lzoSkipZeros buf fuel { st with t := st.t + 255, ip := st.ip + 1 }
    else st

/-- `_match`: the four-way branch on the control byte `t`, looping via
`_matchDone`/`_matchNext`.  `.inl st` models `return true` (back to the
main loop), `.inr res` models returning the finished output. -/
def lzoMatch (buf : List Nat) : Nat → LzoState → Except String (LzoState ⊕ List Nat)
  | 0, _ => .error "fuel"
  | fuel + 1, st0 =>
    let body : LzoState ⊕ List Nat :=
      if 64 ≤ st0.t then
        let st := { st0 with
          mp := (st0.op : Int) - 1 - (((st0.t >>> 2) &&& 7 : Nat) : Int) -
            ((lzoIn buf st0.ip <<< 3 : Nat) : Int)
          ip := st0.ip + 1 }
        let st := { st with t := (st.t >>> 5) - 1 }
        .inl (lzoCopyMatch st)
      else if 32 ≤ st0.t then
        let st := { st0 with t := st0.t &&& 31 }
        let st := if st.t = 0 then
            let stz := lzoSkipZeros buf (buf.length + 1) st
            { stz with t := stz.t + 31 + lzoIn buf stz.ip, ip := stz.ip + 1 }
          else st
        let st := { st with
          mp := (st.op : Int) - 1 - ((lzoIn buf st.ip >>> 2 : Nat) : Int) -
            ((lzoIn buf (st.ip + 1) <<< 6 : Nat) : Int)
          ip := st.ip + 2 }
        .inl (lzoCopyMatch st)
      else if 16 ≤ st0.t then
        let st := { st0 with mp := (st0.op : Int) - (((st0.t &&& 8) <<< 11 : Nat) : Int) }
        let st := { st with t := st.t &&& 7 }
        let st := if st.t = 0 then
            let stz := lzoSkipZeros buf (buf.length + 1) st
            { stz with t := stz.t + 7 + lzoIn buf stz.ip, ip := stz.ip + 1 }
          else st
        let st := { st with
          mp := st.mp - ((lzoIn buf st.ip >>> 2 : Nat) : Int) -
            ((lzoIn buf (st.ip + 1) <<< 6 : Nat) : Int)
          ip := st.ip + 2 }
        if st.mp = (st.op : Int) then
          .inr ((List.range st.op).map (fun i => st.out (i : Int)))
        else
          .inl (lzoCopyMatch { st with mp := st.mp - 0x4000 })
      else
        let st := { st0 with
          mp := (st0.op : Int) - 1 - ((st0.t >>> 2 : Nat) : Int) -
            ((lzoIn buf st0.ip <<< 2 : Nat) : Int)
          ip := st0.ip + 1 }
        let st := { (lzoPush st (st.out st.mp)) with mp := st.mp + 1 }
        .inl (lzoPush st (st.out st.mp))
    match body with
    | .inr res => .ok (.inr res)
    | .inl st1 =>
      let st2 := lzoMatchDone buf st1
      if st2.t = 0 then .ok (.inl st2)
      else lzoMatch buf fuel (lzoMatchNext buf st2)

/-- The part of the main loop after the literal run (entered directly when
`_skipToFirstLiteralFunc` is set): read the next control byte, handle the
short two-byte-offset match for `t < 16`, then run `_match`.  `.inl st`
models `continue`. -/
def lzoPostLit (buf : List Nat) (st0 : LzoState) : Except String (LzoState ⊕ List Nat) :=
  let st1 := { st0 with t := lzoIn buf st0.ip, ip := st0.ip + 1 }
  if st1.t < 16 then
    let st2 := { st1 with
      mp := (st1.op : Int) - (1 + 0x0800) - ((st1.t >>> 2 : Nat) : Int) -
        ((lzoIn buf st1.ip <<< 2 : Nat) : Int)
      ip := st1.ip + 1 }
    let st3 := { (lzoPush st2 (st2.out st2.mp)) with mp := st2.mp + 1 }
    let st4 := { (lzoPush st3 (st3.out st3.mp)) with mp := st3.mp + 1 }
    let st5 := lzoPush st4 (st4.out st4.mp)
    let st6 := lzoMatchDone buf st5
    if st6.t = 0 then .ok (.inl st6)
    else lzoMatch buf (buf.length + 1) (lzoMatchNext buf st6)
  else lzoMatch buf (buf.length + 1) st1

/-- The `while (true)` loop of `_decompressBuffer`. -/
def lzoMainLoop (buf : List Nat) : Nat → LzoState → Bool → Except String (List Nat)
  | 0, _, _ => .error "fuel"
  | fuel + 1, st0, skip =>
    if ¬ skip then
      let st1 := { st0 with t := lzoIn buf st0.ip, ip := st0.ip + 1 }
      if 16 ≤ st1.t then
        match lzoMatch buf (buf.length + 1) st1 with
        | .error e => .error e
        | .ok (.inr res) => .ok res
        | .ok (.inl st2) => lzoMainLoop buf fuel st2 false
      else
        let st2 := if st1.t = 0 then
            let stz := lzoSkipZeros buf (buf.length + 1) st1
            { stz with t := stz.t + 15 + lzoIn buf stz.ip, ip := stz.ip + 1 }
          else st1
        let st3 := lzoCopyFromBuffer buf { st2 with t := st2.t + 3 }
        match lzoPostLit buf st3 with
        | .error e => .error e
        | .ok (.inr res) => .ok res
        | .ok (.inl st4) => lzoMainLoop buf fuel st4 false
    else
      match lzoPostLit buf st0 with
      | .error e => .error e
      | .ok (.inr res) => .ok res
      | .ok (.inl st4) => lzoMainLoop buf fuel st4 false

/-- `_decompressBuffer`: the optional short first-literal-run special case,
then the main loop. -/
def lzoDecompressBuffer (buf : List Nat) : Except String (List Nat) :=
  let st0 : LzoState := { out := fun _ => 0, op := 0, ip := 0, t := 0, mp := 0 }
  if 17 < lzoIn buf 0 then
    let st1 := { st0 with t := lzoIn buf 0 - 17, ip := 1 }
    if st1.t < 4 then
      match lzoMatch buf (buf.length + 1) (lzoMatchNext buf st1) with
      | .error e => .error e
      | .ok (.inr res) => .ok res
      | .ok (.inl st2) => lzoMainLoop buf (buf.length + 2) st2 false
    else
      lzoMainLoop buf (buf.length + 2) (lzoCopyFromBuffer buf st1) true
  else lzoMainLoop buf (buf.length + 2) st0 false

/-- `lzoDecompress(src, expectedSize)`: decompress, then fail unless the
decoded length equals the caller-declared size. -/
def lzoDecompress (src : List Nat) (expectedSize : Nat) : Except String (List Nat) :=
  match lzoDecompressBuffer src with
  | .error e => .error e
  | .ok d =>
    if d.length ≠ expectedSize then .error "LZO decompression size mismatch"
    else .ok d

/-! ## Claim C4 (declared-size postconditions) -/

theorem setSegment_length (l : List Nat) (i : Nat) (seg : List Nat)
    (h : i + seg.length ≤ l.length) : (setSegment l i seg).length = l.length := by
  simp [setSegment]
  omega

/-- The chunk loop of `decompressLz4Block` never changes the length of the
target buffer it writes into. -/
theorem lz4ChunkLoop_length (buf : List Nat) :
    ∀ (fuel pos targetIdx dictSize : Nat) (target dict out : List Nat) (outIdx pos2 : Nat),
    lz4ChunkLoop buf fuel pos target targetIdx dict dictSize = .ok (out, outIdx, pos2) →
    out.length = target.length := by
  intro fuel
  induction fuel with
  | zero =>
    intro pos targetIdx dictSize target dict out outIdx pos2 h
    exact absurd h (by simp [lz4ChunkLoop])
  | succ n ih =>
    intro pos targetIdx dictSize target dict out outIdx pos2 h
    simp only [lz4ChunkLoop] at h
    split at h
    · exact absurd h (by simp)
    · split at h
      · exact absurd h (by simp)
      · split at h
        · exact absurd h (by simp)
        · split at h
          · exact absurd h (by simp)
          · split at h
            · exact absurd h (by simp)
            · rename_i hfit
              split at h
              · rw [Except.ok.injEq, Prod.mk.injEq, Prod.mk.injEq] at h
                rw [← h.1, setSegment_length _ _ _ (by omega)]
              · have hlen := ih _ _ _ _ _ _ _ _ h
                rw [hlen, setSegment_length _ _ _ (by omega)]

/-- Claim C4: whenever `lzoDecompress(src, expectedSize)` returns, the
returned buffer has length exactly `expectedSize`, and whenever
`decompressLz4Block` returns, the returned buffer has length exactly the
32-bit target size read from the first 4 bytes of the block and the reader
ends exactly `declaredSize` bytes past its start position; in all other
cases a structured error is raised and nothing is returned. -/
theorem c4_theorem :
    (∀ (src : List Nat) (expectedSize : Nat) (out : List Nat),
      lzoDecompress src expectedSize = .ok out → out.length = expectedSize) ∧
    (∀ (buf : List Nat) (pos declaredSize : Nat) (out : List Nat) (pos2 : Nat),
      decompressLz4Block buf pos declaredSize = .ok (out, pos2) →
      out.length = u32At buf pos ∧ pos2 = pos + declaredSize) := by
  constructor
  · intro src expectedSize out h
    unfold lzoDecompress at h
    split at h
    · exact absurd h (by simp)
    · split at h
      · exact absurd h (by simp)
      · rename_i hlen
        rw [Except.ok.injEq] at h
        rw [← h]
        omega
  · intro buf pos declaredSize out pos2 h
    simp only [decompressLz4Block] at h
    split at h
    · exact absurd h (by simp)
    · rename_i ts pos1 hread
      unfold readUInt32R at hread
      split at hread
      · rw [Except.ok.injEq, Prod.mk.injEq] at hread
        split at h
        · exact absurd h (by simp)
        · rename_i tgt hloop
          split at h
          · exact absurd h (by simp)
          · rename_i hpos
            split at h
            · exact absurd h (by simp)
            · rename_i hidx
              rw [Except.ok.injEq, Prod.mk.injEq] at h
              obtain ⟨h1, h2⟩ := h
              have hl := lz4ChunkLoop_length buf _ _ _ _ _ _ _ _ _ hloop
              constructor
              · rw [← h1, hl, List.length_replicate]
                omega
              · omega
      · exact absurd hread (by simp)

/-- Witness for `c4_theorem` at concrete inputs: a 5-byte LZO stream
decoding to one byte, and a single-chunk LZ4 block of declared length 10
decoding to one byte. -/
theorem c4_witness :
    ([65] : List Nat).length = 1 ∧
    ([65] : List Nat).length = u32At [1, 0, 0, 0, 2, 0, 0, 128, 16, 65] 0 ∧
    (10 : Nat) = 0 + 10 :=
  ⟨c4_theorem.1 [18, 65, 17, 0, 0] 1 [65] (by rfl),
   (c4_theorem.2 [1, 0, 0, 0, 2, 0, 0, 128, 16, 65] 0 10 [65] 10 (by rfl)).1,
   (c4_theorem.2 [1, 0, 0, 0, 2, 0, 0, 128, 16, 65] 0 10 [65] 10 (by rfl)).2⟩

/-! ## Shared BCn color utilities (packages/bcn/src/utils.ts) -/

structure ColorRgb24 where
  r : Nat
  g : Nat
  b : Nat
deriving Repr, DecidableEq

/-- `ColorRgb565.toColorRgb24`: unpack a packed 5:6:5 value and expand each
channel to 8 bits by bit replication. -/
def ColorRgb565.toColorRgb24 (data : Nat) : ColorRgb24 :=
  let r5 := (data >>> 11) &&& 0x1F
  let g6 := (data >>> 5) &&& 0x3F
  let b5 := data &&& 0x1F
  { r := (r5 <<< 3) ||| (r5 >>> 2)
    g := (g6 <<< 2) ||| (g6 >>> 4)
    b := (b5 <<< 3) ||| (b5 >>> 2) }

def interpolateHalf (c0 c1 : ColorRgb24) : ColorRgb24 :=
  { r := (c0.r + c1.r) / 2, g := (c0.g + c1.g) / 2, b := (c0.b + c1.b) / 2 }

def interpolateThird (c0 c1 : ColorRgb24) (step : Nat) : ColorRgb24 :=
  if step = 1 then
    { r := (2 * c0.r + c1.r) / 3, g := (2 * c0.g + c1.g) / 3, b := (2 * c0.b + c1.b) / 3 }
  else
    { r := (c0.r + 2 * c1.r) / 3, g := (c0.g + 2 * c1.g) / 3, b := (c0.b + 2 * c1.b) / 3 }

def interpolateByteFifth (e0 e1 step : Nat) : Nat :=
  if step = 1 then (4 * e0 + e1) / 5
  else if step = 2 then (3 * e0 + 2 * e1) / 5
  else if step = 3 then (2 * e0 + 3 * e1) / 5
  else (e0 + 4 * e1) / 5

def interpolateByteSeventh (e0 e1 step : Nat) : Nat :=
  if step = 1 then (6 * e0 + e1) / 7
  else if step = 2 then (5 * e0 + 2 * e1) / 7
  else if step = 3 then (4 * e0 + 3 * e1) / 7
  else if step = 4 then (3 * e0 + 4 * e1) / 7
  else if step = 5 then (2 * e0 + 5 * e1) / 7
  else (e0 + 6 * e1) / 7

/-- Little-endian 16-bit value at `i` (`DataView.getUint16`). -/
def u16At (l : List Nat) (i : Nat) : Nat := l.getD i 0 + 2 ^ 8 * l.getD (i + 1) 0

/-- Little-endian 64-bit value at `i` (`DataView.getBigUint64`). -/
def u64At (l : List Nat) (i : Nat) : Nat :=
  l.getD i 0 + 2 ^ 8 * l.getD (i + 1) 0 + 2 ^ 16 * l.getD (i + 2) 0 +
    2 ^ 24 * l.getD (i + 3) 0 + 2 ^ 32 * l.getD (i + 4) 0 + 2 ^ 40 * l.getD (i + 5) 0 +
    2 ^ 48 * l.getD (i + 6) 0 + 2 ^ 56 * l.getD (i + 7) 0

/-! ## Decoder output assembly

Each BCn decoder iterates blocks in row-major order, then the 16 texels of
each 4x4 block, and for every in-bounds texel (`px < width && py < height`)
stores the texel's bytes into the output `rgba` buffer at
`dstIdx = (py * width + px) * 4`.  The stores are modelled as an explicit
event list (position, value), applied in order to the zero-initialized
output buffer, so that claims about write coverage can be stated about the
event list itself. -/

/-- The nested block/texel loop shared by the BCn decoders, emitting the
byte stores of `tex` for every in-bounds texel. -/
def bcnWrites (width height : Nat) (tex : Nat → Nat → Nat → Nat → List (Nat × Nat)) :
    List (Nat × Nat) :=
  (List.range ((height + 3) / 4)).flatMap fun yb =>
    (List.range ((width + 3) / 4)).flatMap fun xb =>
      (List.range 4).flatMap fun y =>
        (List.range 4).flatMap fun x =>
          if xb * 4 + x < width ∧ yb * 4 + y < height then tex yb xb y x else []

/-- Apply a list of byte stores in order to a buffer (a store at an
out-of-range position is dropped, as for a `Uint8Array`). -/
def applyWrites (init : List Nat) (ws : List (Nat × Nat)) : List Nat :=
  ws.foldl (fun buf w => buf.set w.1 w.2) init

/-! ## BC1 decoder (packages/bcn/src/bc1.ts) -/

/-- One texel of a BC1 block: palette construction from the two packed
5:6:5 colors and the per-texel 2-bit palette select, with the 1-bit-alpha
handling. -/
def decodeBC1Texel (color0Data color1Data indices : Nat) (useAlpha : Bool) (i : Nat) :
    Nat × Nat × Nat × Nat :=
  let c0 := ColorRgb565.toColorRgb24 color0Data
  let c1 := ColorRgb565.toColorRgb24 color1Data
  let colors := if color0Data ≤ color1Data then
      [c0, c1, interpolateHalf c0 c1, ⟨0, 0, 0⟩]
    else [c0, c1, interpolateThird c0 c1 1, interpolateThird c0 c1 2]
  let colorIndex := (indices >>> (i * 2)) &&& 3
  let color := colors.getD colorIndex ⟨0, 0, 0⟩
  if useAlpha ∧ color0Data ≤ color1Data ∧ colorIndex = 3 then (0, 0, 0, 0)
  else (color.r, color.g, color.b, 255)

/-- The byte stores performed by `decodeBC1`. -/
def decodeBC1Writes (data : List Nat) (width height : Nat) (useAlpha : Bool) :
    List (Nat × Nat) :=
  bcnWrites width height fun yb xb y x =>
    let offset := 8 * (yb * ((width + 3) / 4) + xb)
    let t := decodeBC1Texel (u16At data offset) (u16At data (offset + 2))
      (u32At data (offset + 4)) useAlpha (y * 4 + x)
    let d := ((yb * 4 + y) * width + (xb * 4 + x)) * 4
    [(d, t.1), (d + 1, t.2.1), (d + 2, t.2.2.1), (d + 3, t.2.2.2)]

/-- `decodeBC1(data, width, height, useAlpha)`.  The `DataView` block reads
throw a `RangeError` exactly when the input is shorter than the visited
blocks require. -/
def decodeBC1 (data : List Nat) (width height : Nat) (useAlpha : Bool) :
    Except String (List Nat) :=
  if 8 * (((width + 3) / 4) * ((height + 3) / 4)) ≤ data.length then
    .ok (applyWrites (List.replicate (width * height * 4) 0)
      (decodeBC1Writes data width height useAlpha))
  else .error "RangeError"

/-! ## BC3 alpha block (packages/bcn/src/bc3.ts) -/

/-- `decodeAlphaBlock(alphaData)`: the 8-entry alpha palette and the 16
3-bit palette selects packed from bit 16. -/
def decodeAlphaBlock (alphaData : Nat) : List Nat :=
  let alpha0 := alphaData &&& 0xFF
  let alpha1 := (alphaData >>> 8) &&& 0xFF
  let alphas := if alpha1 < alpha0 then
      [alpha0, alpha1,
       interpolateByteSeventh alpha0 alpha1 1, interpolateByteSeventh alpha0 alpha1 2,
       interpolateByteSeventh alpha0 alpha1 3, interpolateByteSeventh alpha0 alpha1 4,
       interpolateByteSeventh alpha0 alpha1 5, interpolateByteSeventh alpha0 alpha1 6]
    else
      [alpha0, alpha1,
       interpolateByteFifth alpha0 alpha1 1, interpolateByteFifth alpha0 alpha1 2,
       interpolateByteFifth alpha0 alpha1 3, interpolateByteFifth alpha0 alpha1 4,
       0, 255]
  (List.range 16).map fun i => alphas.getD ((alphaData >>> (16 + i * 3)) &&& 0x7) 0

/-! ## BC4 decoder (the unnamed source file `part_012`) -/

/-- `decodeComponentBlock(componentData)`: identical palette logic to the
BC3 alpha block, for the selected single channel. -/
def decodeComponentBlock (componentData : Nat) : List Nat :=
  let c0 := componentData &&& 0xFF
  let c1 := (componentData >>> 8) &&& 0xFF
  let components := if c1 < c0 then
      [c0, c1,
       interpolateByteSeventh c0 c1 1, interpolateByteSeventh c0 c1 2,
       interpolateByteSeventh c0 c1 3, interpolateByteSeventh c0 c1 4,
       interpolateByteSeventh c0 c1 5, interpolateByteSeventh c0 c1 6]
    else
      [c0, c1,
       interpolateByteFifth c0 c1 1, interpolateByteFifth c0 c1 2,
       interpolateByteFifth c0 c1 3, interpolateByteFifth c0 c1 4,
       0, 255]
  (List.range 16).map fun i => components.getD ((componentData >>> (16 + i * 3)) &&& 0x7) 0

inductive Bc4Channel where
  | r
  | g
  | b
  | a
deriving Repr, DecidableEq

/-- The `channelMap` of `decodeBC4`. -/
def Bc4Channel.toIdx : Bc4Channel → Nat
  | .r => 0
  | .g => 1
  | .b => 2
  | .a => 3

/-- The byte stores performed by `decodeBC4`: per in-bounds texel, four
default stores `(0,0,0,255)` followed by a store of the decoded component
into the selected channel. -/
def decodeBC4Writes (data : List Nat) (width height : Nat) (channel : Bc4Channel) :
    List (Nat × Nat) :=
  bcnWrites width height fun yb xb y x =>
    let offset := 8 * (yb * ((width + 3) / 4) + xb)
    let components := decodeComponentBlock (u64At data offset)
    let d := ((yb * 4 + y) * width + (xb * 4 + x)) * 4
    [(d, 0), (d + 1, 0), (d + 2, 0), (d + 3, 255),
     (d + channel.toIdx, components.getD (y * 4 + x) 0)]

/-- `decodeBC4(data, width, height, channel)`. -/
def decodeBC4 (data : List Nat) (width height : Nat) (channel : Bc4Channel) :
    Except String (List Nat) :=
  if 8 * (((width + 3) / 4) * ((height + 3) / 4)) ≤ data.length then
    .ok (applyWrites (List.replicate (width * height * 4) 0)
      (decodeBC4Writes data width height channel))
  else .error "RangeError"

/-! ## Claim C5 (BC1 palette and alpha modes) -/

/-- The BC1 1-bit-alpha-mode palette as the specification describes it:
`{c0, c1, half(c0,c1), black}`. -/
def bc1PaletteAlphaClaim (c0 c1 : ColorRgb24) : List ColorRgb24 :=
  [c0, c1, interpolateHalf c0 c1, ⟨0, 0, 0⟩]

/-- The BC1 four-color-mode palette as the specification describes it:
`{c0, c1, oneThird(c0,c1), twoThirds(c0,c1)}`. -/
def bc1PaletteOpaqueClaim (c0 c1 : ColorRgb24) : List ColorRgb24 :=
  [c0, c1, interpolateThird c0 c1 1, interpolateThird c0 c1 2]

/-- Claim C5: with `c0_raw <= c1_raw` (including equality) a BC1 block is
decoded in 1-bit-alpha mode with palette `{c0, c1, half, black}`: an
index-3 texel becomes transparent black `(0,0,0,0)` when `useAlpha` is set
and opaque black `(0,0,0,255)` otherwise; with `c0_raw > c1_raw` the
palette is the one/two-thirds palette and every texel is fully opaque. -/
theorem c5_theorem (c0d c1d indices : Nat) (useAlpha : Bool) (i : Nat) :
    (c0d ≤ c1d →
      decodeBC1Texel c0d c1d indices useAlpha i =
        (if (indices >>> (i * 2)) &&& 3 = 3 then
          (if useAlpha then (0, 0, 0, 0) else (0, 0, 0, 255))
        else
          (let c := (bc1PaletteAlphaClaim (ColorRgb565.toColorRgb24 c0d)
              (ColorRgb565.toColorRgb24 c1d)).getD ((indices >>> (i * 2)) &&& 3) ⟨0, 0, 0⟩
           (c.r, c.g, c.b, 255)))) ∧
    (c1d < c0d →
      decodeBC1Texel c0d c1d indices useAlpha i =
        (let c := (bc1PaletteOpaqueClaim (ColorRgb565.toColorRgb24 c0d)
            (ColorRgb565.toColorRgb24 c1d)).getD ((indices >>> (i * 2)) &&& 3) ⟨0, 0, 0⟩
         (c.r, c.g, c.b, 255))) := by
  have hci : (indices >>> (i * 2)) &&& 3 ≤ 3 := Nat.and_le_right
  constructor
  · intro hle
    by_cases hidx : (indices >>> (i * 2)) &&& 3 = 3
    · by_cases hu : useAlpha
      · simp [decodeBC1Texel, bc1PaletteAlphaClaim, hle, hidx, hu]
      · simp [decodeBC1Texel, bc1PaletteAlphaClaim, hle, hidx, hu]
    · simp [decodeBC1Texel, bc1PaletteAlphaClaim, hle, hidx]
  · intro hlt
    have hnle : ¬ c0d ≤ c1d := by omega
    simp [decodeBC1Texel, bc1PaletteOpaqueClaim, hnle]

/-- Witness for `c5_theorem`: an equal-endpoints block with index 3 and
alpha requested decodes to transparent black, and the golden white/black
block `{0xFFFF, 0x0000, 0}` decodes texel 5 to opaque white. -/
theorem c5_witness :
    decodeBC1Texel 0 0 4294967295 true 0 = (0, 0, 0, 0) ∧
    decodeBC1Texel 65535 0 0 false 5 = (255, 255, 255, 255) := by
  constructor
  · rw [(c5_theorem 0 0 4294967295 true 0).1 (by decide)]
    decide
  · rw [(c5_theorem 65535 0 0 false 5).2 (by decide)]
    decide

/-! ## Claim C7 (BC3 alpha block decoding) -/

/-- The BC3 alpha palette as the specification describes it: sevenths
interpolation when `alpha0 > alpha1`, otherwise fifths interpolation with
entries 6 and 7 fixed at 0 and 255. -/
def bc3AlphaPaletteClaim (alpha0 alpha1 : Nat) : List Nat :=
  if alpha0 > alpha1 then
    [alpha0, alpha1,
     interpolateByteSeventh alpha0 alpha1 1, interpolateByteSeventh alpha0 alpha1 2,
     interpolateByteSeventh alpha0 alpha1 3, interpolateByteSeventh alpha0 alpha1 4,
     interpolateByteSeventh alpha0 alpha1 5, interpolateByteSeventh alpha0 alpha1 6]
  else
    [alpha0, alpha1,
     interpolateByteFifth alpha0 alpha1 1, interpolateByteFifth alpha0 alpha1 2,
     interpolateByteFifth alpha0 alpha1 3, interpolateByteFifth alpha0 alpha1 4,
     0, 255]

/-- Claim C7: texel `i` of a BC3 alpha block is the palette entry selected
by the 3-bit index packed at bit `16 + 3*i`, where the palette is the
sevenths palette when `alpha0 > alpha1` and otherwise the fifths palette
with entries 6 and 7 fixed at 0 and 255. -/
theorem c7_theorem (alphaData : Nat) (i : Nat) (h : i < 16) :
    (decodeAlphaBlock alphaData).getD i 0 =
      (bc3AlphaPaletteClaim (alphaData &&& 0xFF) ((alphaData >>> 8) &&& 0xFF)).getD
        ((alphaData >>> (16 + 3 * i)) &&& 0x7) 0 := by
  simp only [decodeAlphaBlock, bc3AlphaPaletteClaim, gt_iff_lt]
  rw [List.getD_eq_getElem?_getD, List.getElem?_map, List.getElem?_range h]
  rw [Nat.mul_comm 3 i]
  rfl

/-- Witness for `c7_theorem` at a concrete alpha block. -/
theorem c7_witness :
    (decodeAlphaBlock 25800).getD 0 0 =
      (bc3AlphaPaletteClaim (25800 &&& 0xFF) ((25800 >>> 8) &&& 0xFF)).getD
        ((25800 >>> (16 + 3 * 0)) &&& 0x7) 0 :=
  c7_theorem 25800 0 (by decide)

/-! ## BC7 decoder (packages/bcn/src/bc7.ts) -/

def ByteHelper.extract (source : Nat) (index bitCount : Nat) : Nat :=
  (source >>> index) &&& ((1 <<< bitCount) - 1)

/-- `ByteHelper.extractFrom128(low, high, index, bitCount)`.  The two
single-word branches are exact (`bigint` arithmetic); the boundary branch
recombines the two halves with the JavaScript *number* operators `<<` and
`|`, which work on signed 32-bit values, so the result is an `Int`. -/
def ByteHelper.extractFrom128 (low high : Nat) (index bitCount : Nat) : Int :=
  if index + bitCount ≤ 64 then (ByteHelper.extract low index bitCount : Int)
  else if 64 ≤ index then (ByteHelper.extract high (index - 64) bitCount : Int)
  else
    let lowBitCount := 64 - index
    let highBitCount := bitCount - lowBitCount
    let lowValue := ByteHelper.extract low index lowBitCount
    let highValue := ByteHelper.extract high 0 highBitCount
    jsOr32 (lowValue : Int) (jsShl32 (highValue : Int) lowBitCount)

/-- `extractFrom128` as the BC7 decoder consumes it: every internal call
has `bitCount <= 8`, where the result is nonnegative. -/
def ByteHelper.extractU (low high : Nat) (index bitCount : Nat) : Nat :=
  (ByteHelper.extractFrom128 low high index bitCount).toNat

def ByteHelper.extract1 (source : Nat) (index : Nat) : Nat := (source >>> index) &&& 1

def ByteHelper.extract2 (source : Nat) (index : Nat) : Nat := (source >>> index) &&& 3

def ByteHelper.extract4 (source : Nat) (index : Nat) : Nat := (source >>> index) &&& 15

def ByteHelper.extract6 (source : Nat) (index : Nat) : Nat := (source >>> index) &&& 63

def colorWeights2 : List Nat := [0, 21, 43, 64]

def colorWeights3 : List Nat := [0, 9, 18, 27, 37, 46, 55, 64]

def colorWeights4 : List Nat := [0, 4, 9, 13, 17, 21, 26, 30, 34, 38, 43, 47, 51, 55, 60, 64]

def interpolateByte (e0 e1 index indexPrecision : Nat) : Nat :=
  if indexPrecision = 0 then e0
  else
    let weights := if indexPrecision = 2 then colorWeights2
                   else if indexPrecision = 3 then colorWeights3
                   else colorWeights4
    let w := weights.getD index 0
    ((64 - w) * e0 + w * e1 + 32) >>> 6

def subsets2PartitionTable : List (List Nat) := [
  [0, 0, 1, 1, 0, 0, 1, 1, 0, 0, 1, 1, 0, 0, 1, 1],
  [0, 0, 0, 1, 0, 0, 0, 1, 0, 0, 0, 1, 0, 0, 0, 1],
  [0, 1, 1, 1, 0, 1, 1, 1, 0, 1, 1, 1, 0, 1, 1, 1],
  [0, 0, 0, 1, 0, 0, 1, 1, 0, 0, 1, 1, 0, 1, 1, 1],
  [0, 0, 0, 0, 0, 0, 0, 1, 0, 0, 0, 1, 0, 0, 1, 1],
  [0, 0, 1, 1, 0, 1, 1, 1, 0, 1, 1, 1, 1, 1, 1, 1],
  [0, 0, 0, 1, 0, 0, 1, 1, 0, 1, 1, 1, 1, 1, 1, 1],
  [0, 0, 0, 0, 0, 0, 0, 1, 0, 0, 1, 1, 0, 1, 1, 1],
  [0, 0, 0, 0, 0, 0, 0, 0, 0, 0, 0, 1, 0, 0, 1, 1],
  [0, 0, 1, 1, 0, 1, 1, 1, 1, 1, 1, 1, 1, 1, 1, 1],
  [0, 0, 0, 0, 0, 0, 0, 1, 0, 1, 1, 1, 1, 1, 1, 1],
  [0, 0, 0, 0, 0, 0, 0, 0, 0, 0, 0, 1, 0, 1, 1, 1],
  [0, 0, 0, 1, 0, 1, 1, 1, 1, 1, 1, 1, 1, 1, 1, 1],
  [0, 0, 0, 0, 0, 0, 0, 0, 1, 1, 1, 1, 1, 1, 1, 1],
  [0, 0, 0, 0, 1, 1, 1, 1, 1, 1, 1, 1, 1, 1, 1, 1],
  [0, 0, 0, 0, 0, 0, 0, 0, 0, 0, 0, 0, 1, 1, 1, 1],
  [0, 0, 0, 0, 1, 0, 0, 0, 1, 1, 1, 0, 1, 1, 1, 1],
  [0, 1, 1, 1, 0, 0, 0, 1, 0, 0, 0, 0, 0, 0, 0, 0],
  [0, 0, 0, 0, 0, 0, 0, 0, 1, 0, 0, 0, 1, 1, 1, 0],
  [0, 1, 1, 1, 0, 0, 1, 1, 0, 0, 0, 1, 0, 0, 0, 0],
  [0, 0, 1, 1, 0, 0, 0, 1, 0, 0, 0, 0, 0, 0, 0, 0],
  [0, 0, 0, 0, 1, 0, 0, 0, 1, 1, 0, 0, 1, 1, 1, 0],
  [0, 0, 0, 0, 0, 0, 0, 0, 1, 0, 0, 0, 1, 1, 0, 0],
  [0, 1, 1, 1, 0, 0, 1, 1, 0, 0, 1, 1, 0, 0, 0, 1],
  [0, 0, 1, 1, 0, 0, 0, 1, 0, 0, 0, 1, 0, 0, 0, 0],
  [0, 0, 0, 0, 1, 0, 0, 0, 1, 0, 0, 0, 1, 1, 0, 0],
  [0, 1, 1, 0, 0, 1, 1, 0, 0, 1, 1, 0, 0, 1, 1, 0],
  [0, 0, 1, 1, 0, 1, 1, 0, 0, 1, 1, 0, 1, 1, 0, 0],
  [0, 0, 0, 1, 0, 1, 1, 1, 1, 1, 1, 0, 1, 0, 0, 0],
  [0, 0, 0, 0, 1, 1, 1, 1, 1, 1, 1, 1, 0, 0, 0, 0],
  [0, 1, 1, 1, 0, 0, 0, 1, 1, 0, 0, 0, 1, 1, 1, 0],
  [0, 0, 1, 1, 1, 0, 0, 1, 1, 0, 0, 1, 1, 1, 0, 0],
  [0, 1, 0, 1, 0, 1, 0, 1, 0, 1, 0, 1, 0, 1, 0, 1],
  [0, 0, 0, 0, 1, 1, 1, 1, 0, 0, 0, 0, 1, 1, 1, 1],
  [0, 1, 0, 1, 1, 0, 1, 0, 0, 1, 0, 1, 1, 0, 1, 0],
  [0, 0, 1, 1, 0, 0, 1, 1, 1, 1, 0, 0, 1, 1, 0, 0],
  [0, 0, 1, 1, 1, 1, 0, 0, 0, 0, 1, 1, 1, 1, 0, 0],
  [0, 1, 0, 1, 0, 1, 0, 1, 1, 0, 1, 0, 1, 0, 1, 0],
  [0, 1, 1, 0, 1, 0, 0, 1, 0, 1, 1, 0, 1, 0, 0, 1],
  [0, 1, 0, 1, 1, 0, 1, 0, 1, 0, 1, 0, 0, 1, 0, 1],
  [0, 1, 1, 1, 0, 0, 1, 1, 1, 1, 0, 0, 1, 1, 1, 0],
  [0, 0, 0, 1, 0, 0, 1, 1, 1, 1, 0, 0, 1, 0, 0, 0],
  [0, 0, 1, 1, 0, 0, 1, 0, 0, 1, 0, 0, 1, 1, 0, 0],
  [0, 0, 1, 1, 1, 0, 1, 1, 1, 1, 0, 1, 1, 1, 0, 0],
  [0, 1, 1, 0, 1, 0, 0, 1, 1, 0, 0, 1, 0, 1, 1, 0],
  [0, 0, 1, 1, 1, 1, 0, 0, 1, 1, 0, 0, 0, 0, 1, 1],
  [0, 1, 1, 0, 0, 1, 1, 0, 1, 0, 0, 1, 1, 0, 0, 1],
  [0, 0, 0, 0, 0, 1, 1, 0, 0, 1, 1, 0, 0, 0, 0, 0],
  [0, 1, 0, 0, 1, 1, 1, 0, 0, 1, 0, 0, 0, 0, 0, 0],
  [0, 0, 1, 0, 0, 1, 1, 1, 0, 0, 1, 0, 0, 0, 0, 0],
  [0, 0, 0, 0, 0, 0, 1, 0, 0, 1, 1, 1, 0, 0, 1, 0],
  [0, 0, 0, 0, 0, 1, 0, 0, 1, 1, 1, 0, 0, 1, 0, 0],
  [0, 1, 1, 0, 1, 1, 0, 0, 1, 0, 0, 1, 0, 0, 1, 1],
  [0, 0, 1, 1, 0, 1, 1, 0, 1, 1, 0, 0, 1, 0, 0, 1],
  [0, 1, 1, 0, 0, 0, 1, 1, 1, 0, 0, 1, 1, 1, 0, 0],
  [0, 0, 1, 1, 1, 0, 0, 1, 1, 1, 0, 0, 0, 1, 1, 0],
  [0, 1, 1, 0, 1, 1, 0, 0, 1, 1, 0, 0, 1, 0, 0, 1],
  [0, 1, 1, 0, 0, 0, 1, 1, 0, 0, 1, 1, 1, 0, 0, 1],
  [0, 1, 1, 1, 1, 1, 1, 0, 1, 0, 0, 0, 0, 0, 0, 1],
  [0, 0, 0, 1, 1, 0, 0, 0, 1, 1, 1, 0, 0, 1, 1, 1],
  [0, 0, 0, 0, 1, 1, 1, 1, 0, 0, 1, 1, 0, 0, 1, 1],
  [0, 0, 1, 1, 0, 0, 1, 1, 1, 1, 1, 1, 0, 0, 0, 0],
  [0, 0, 1, 0, 0, 0, 1, 0, 1, 1, 1, 0, 1, 1, 1, 0],
  [0, 1, 0, 0, 0, 1, 0, 0, 0, 1, 1, 1, 0, 1, 1, 1]]

def subsets3PartitionTable : List (List Nat) := [
  [0, 0, 1, 1, 0, 0, 1, 1, 0, 2, 2, 1, 2, 2, 2, 2],
  [0, 0, 0, 1, 0, 0, 1, 1, 2, 2, 1, 1, 2, 2, 2, 1],
  [0, 0, 0, 0, 2, 0, 0, 1, 2, 2, 1, 1, 2, 2, 1, 1],
  [0, 2, 2, 2, 0, 0, 2, 2, 0, 0, 1, 1, 0, 1, 1, 1],
  [0, 0, 0, 0, 0, 0, 0, 0, 1, 1, 2, 2, 1, 1, 2, 2],
  [0, 0, 1, 1, 0, 0, 1, 1, 0, 0, 2, 2, 0, 0, 2, 2],
  [0, 0, 2, 2, 0, 0, 2, 2, 1, 1, 1, 1, 1, 1, 1, 1],
  [0, 0, 1, 1, 0, 0, 1, 1, 2, 2, 1, 1, 2, 2, 1, 1],
  [0, 0, 0, 0, 0, 0, 0, 0, 1, 1, 1, 1, 2, 2, 2, 2],
  [0, 0, 0, 0, 1, 1, 1, 1, 1, 1, 1, 1, 2, 2, 2, 2],
  [0, 0, 0, 0, 1, 1, 1, 1, 2, 2, 2, 2, 2, 2, 2, 2],
  [0, 0, 1, 2, 0, 0, 1, 2, 0, 0, 1, 2, 0, 0, 1, 2],
  [0, 1, 1, 2, 0, 1, 1, 2, 0, 1, 1, 2, 0, 1, 1, 2],
  [0, 1, 2, 2, 0, 1, 2, 2, 0, 1, 2, 2, 0, 1, 2, 2],
  [0, 0, 1, 1, 0, 1, 1, 2, 1, 1, 2, 2, 1, 2, 2, 2],
  [0, 0, 1, 1, 2, 0, 0, 1, 2, 2, 0, 0, 2, 2, 2, 0],
  [0, 0, 0, 1, 0, 0, 1, 1, 0, 1, 1, 2, 1, 1, 2, 2],
  [0, 1, 1, 1, 0, 0, 1, 1, 2, 0, 0, 1, 2, 2, 0, 0],
  [0, 0, 0, 0, 1, 1, 2, 2, 1, 1, 2, 2, 1, 1, 2, 2],
  [0, 0, 2, 2, 0, 0, 2, 2, 0, 0, 2, 2, 1, 1, 1, 1],
  [0, 1, 1, 1, 0, 1, 1, 1, 0, 2, 2, 2, 0, 2, 2, 2],
  [0, 0, 0, 1, 0, 0, 0, 1, 2, 2, 2, 1, 2, 2, 2, 1],
  [0, 0, 0, 0, 0, 0, 1, 1, 0, 1, 2, 2, 0, 1, 2, 2],
  [0, 0, 0, 0, 1, 1, 0, 0, 2, 2, 1, 0, 2, 2, 1, 0],
  [0, 1, 2, 2, 0, 1, 2, 2, 0, 0, 1, 1, 0, 0, 0, 0],
  [0, 0, 1, 2, 0, 0, 1, 2, 1, 1, 2, 2, 2, 2, 2, 2],
  [0, 1, 1, 0, 1, 2, 2, 1, 1, 2, 2, 1, 0, 1, 1, 0],
  [0, 0, 0, 0, 0, 1, 1, 0, 1, 2, 2, 1, 1, 2, 2, 1],
  [0, 0, 2, 2, 1, 1, 0, 2, 1, 1, 0, 2, 0, 0, 2, 2],
  [0, 1, 1, 0, 0, 1, 1, 0, 2, 0, 0, 2, 2, 2, 2, 2],
  [0, 0, 1, 1, 0, 1, 2, 2, 0, 1, 2, 2, 0, 0, 1, 1],
  [0, 0, 0, 0, 2, 0, 0, 0, 2, 2, 1, 1, 2, 2, 2, 1],
  [0, 0, 0, 0, 0, 0, 0, 2, 1, 1, 2, 2, 1, 2, 2, 2],
  [0, 2, 2, 2, 0, 0, 2, 2, 0, 0, 1, 2, 0, 0, 1, 1],
  [0, 0, 1, 1, 0, 0, 1, 2, 0, 0, 2, 2, 0, 2, 2, 2],
  [0, 1, 2, 0, 0, 1, 2, 0, 0, 1, 2, 0, 0, 1, 2, 0],
  [0, 0, 0, 0, 1, 1, 1, 1, 2, 2, 2, 2, 0, 0, 0, 0],
  [0, 1, 2, 0, 1, 2, 0, 1, 2, 0, 1, 2, 0, 1, 2, 0],
  [0, 1, 2, 0, 2, 0, 1, 2, 1, 2, 0, 1, 0, 1, 2, 0],
  [0, 0, 1, 1, 2, 2, 0, 0, 1, 1, 2, 2, 0, 0, 1, 1],
  [0, 0, 1, 1, 1, 1, 2, 2, 2, 2, 0, 0, 0, 0, 1, 1],
  [0, 1, 0, 1, 0, 1, 0, 1, 2, 2, 2, 2, 2, 2, 2, 2],
  [0, 0, 0, 0, 0, 0, 0, 0, 2, 1, 2, 1, 2, 1, 2, 1],
  [0, 0, 2, 2, 1, 1, 2, 2, 0, 0, 2, 2, 1, 1, 2, 2],
  [0, 0, 2, 2, 0, 0, 1, 1, 0, 0, 2, 2, 0, 0, 1, 1],
  [0, 2, 2, 0, 1, 2, 2, 1, 0, 2, 2, 0, 1, 2, 2, 1],
  [0, 1, 0, 1, 2, 2, 2, 2, 2, 2, 2, 2, 0, 1, 0, 1],
  [0, 0, 0, 0, 2, 1, 2, 1, 2, 1, 2, 1, 2, 1, 2, 1],
  [0, 1, 0, 1, 0, 1, 0, 1, 0, 1, 0, 1, 2, 2, 2, 2],
  [0, 2, 2, 2, 0, 1, 1, 1, 0, 2, 2, 2, 0, 1, 1, 1],
  [0, 0, 0, 2, 1, 1, 1, 2, 0, 0, 0, 2, 1, 1, 1, 2],
  [0, 0, 0, 0, 2, 1, 1, 2, 2, 1, 1, 2, 2, 1, 1, 2],
  [0, 2, 2, 2, 0, 1, 1, 1, 0, 1, 1, 1, 0, 2, 2, 2],
  [0, 0, 0, 2, 1, 1, 1, 2, 1, 1, 1, 2, 0, 0, 0, 2],
  [0, 1, 1, 0, 0, 1, 1, 0, 0, 1, 1, 0, 2, 2, 2, 2],
  [0, 0, 0, 0, 0, 0, 0, 0, 2, 1, 1, 2, 2, 1, 1, 2],
  [0, 1, 1, 0, 0, 1, 1, 0, 2, 2, 2, 2, 2, 2, 2, 2],
  [0, 0, 2, 2, 0, 0, 1, 1, 0, 0, 1, 1, 0, 0, 2, 2],
  [0, 0, 2, 2, 1, 1, 2, 2, 1, 1, 2, 2, 0, 0, 2, 2],
  [0, 0, 0, 0, 0, 0, 0, 0, 0, 0, 0, 0, 2, 1, 1, 2],
  [0, 0, 0, 2, 0, 0, 0, 1, 0, 0, 0, 2, 0, 0, 0, 1],
  [0, 2, 2, 2, 1, 2, 2, 2, 0, 2, 2, 2, 1, 2, 2, 2],
  [0, 1, 0, 1, 2, 2, 2, 2, 2, 2, 2, 2, 2, 2, 2, 2],
  [0, 1, 1, 1, 2, 0, 1, 1, 2, 2, 0, 1, 2, 2, 2, 0]]

def subsets2AnchorIndices : List Nat := [
  15, 15, 15, 15, 15, 15, 15, 15, 15, 15, 15, 15, 15, 15, 15, 15,
  15, 2, 8, 2, 2, 8, 8, 15, 2, 8, 2, 2, 8, 8, 2, 2,
  15, 15, 6, 8, 2, 8, 15, 15, 2, 8, 2, 2, 2, 15, 15, 6,
  6, 2, 6, 8, 15, 15, 2, 2, 15, 15, 15, 15, 15, 2, 2, 15]

def subsets3AnchorIndices2 : List Nat := [
  3, 3, 15, 15, 8, 3, 15, 15, 8, 8, 6, 6, 6, 5, 3, 3,
  3, 3, 8, 15, 3, 3, 6, 10, 5, 8, 8, 6, 8, 5, 15, 15,
  8, 15, 3, 5, 6, 10, 8, 15, 15, 3, 15, 5, 15, 15, 15, 15,
  3, 15, 5, 5, 5, 8, 5, 10, 5, 10, 8, 13, 15, 12, 3, 3]

def subsets3AnchorIndices3 : List Nat := [
  15, 8, 8, 3, 15, 15, 3, 8, 15, 15, 15, 15, 15, 15, 15, 8,
  15, 8, 15, 3, 15, 8, 15, 8, 3, 15, 6, 10, 15, 15, 10, 8,
  15, 3, 15, 10, 10, 8, 9, 10, 6, 15, 8, 15, 3, 6, 6, 8,
  15, 3, 15, 15, 15, 15, 15, 15, 15, 15, 15, 15, 3, 15, 15, 8]

structure ColorRgba32 where
  r : Nat
  g : Nat
  b : Nat
  a : Nat
deriving Repr, DecidableEq

/-- `Bc7Block.getType`: index of the lowest set bit among bits 0-7 of the
low word, or the reserved type 8 when none is set. -/
def bc7GetType (low : Nat) : Nat :=
  if low &&& 1 = 1 then 0
  else if low &&& 2 = 2 then 1
  else if low &&& 4 = 4 then 2
  else if low &&& 8 = 8 then 3
  else if low &&& 16 = 16 then 4
  else if low &&& 32 = 32 then 5
  else if low &&& 64 = 64 then 6
  else if low &&& 128 = 128 then 7
  else 8

def bc7NumSubsets (type : Nat) : Nat :=
  if type = 0 ∨ type = 2 then 3
  else if type = 1 ∨ type = 3 ∨ type = 7 then 2
  else 1

def bc7PartitionSetId (low : Nat) (type : Nat) : Nat :=
  if type = 0 then ByteHelper.extract4 low 1
  else if type = 1 then ByteHelper.extract6 low 2
  else if type = 2 then ByteHelper.extract6 low 3
  else if type = 3 then ByteHelper.extract6 low 4
  else if type = 7 then ByteHelper.extract6 low 8
  else 0

def bc7RotationBits (low : Nat) (type : Nat) : Nat :=
  if type = 4 then ByteHelper.extract2 low 5
  else if type = 5 then ByteHelper.extract2 low 6
  else 0

def bc7ColorPrecision (type : Nat) : Nat := [5, 7, 5, 8, 5, 7, 8, 6].getD type 0

def bc7AlphaPrecision (type : Nat) : Nat :=
  if type = 4 then 6
  else if type = 5 ∨ type = 6 then 8
  else if type = 7 then 6
  else 0

def bc7Type4IndexMode (low : Nat) : Nat := ByteHelper.extract1 low 7

def bc7ColorIndexBitCount (low : Nat) (type : Nat) : Nat :=
  if type = 0 ∨ type = 1 then 3
  else if type = 2 ∨ type = 3 ∨ type = 5 ∨ type = 7 then 2
  else if type = 4 then (if bc7Type4IndexMode low = 0 then 2 else 3)
  else if type = 6 then 4
  else 0

def bc7AlphaIndexBitCount (low : Nat) (type : Nat) : Nat :=
  if type = 4 then (if bc7Type4IndexMode low = 0 then 3 else 2)
  else if type = 5 ∨ type = 7 then 2
  else if type = 6 then 4
  else 0

/-- `extractRawEndpoints`: the mode-specific endpoint field layout. -/
def bc7RawEndpoints (low high : Nat) (type numSubsets : Nat) : List ColorRgba32 :=
  let e := ByteHelper.extractU low high
  if type = 0 then
    (List.range 6).map fun i =>
      { r := e (5 + i * 4) 4, g := e (29 + i * 4) 4, b := e (53 + i * 4) 4, a := 0 }
  else if type = 1 then
    (List.range 4).map fun i =>
      { r := e (8 + i * 6) 6, g := e (32 + i * 6) 6, b := e (56 + i * 6) 6, a := 0 }
  else if type = 2 then
    (List.range 6).map fun i =>
      { r := e (9 + i * 5) 5, g := e (39 + i * 5) 5, b := e (69 + i * 5) 5, a := 0 }
  else if type = 3 then
    (List.range 4).map fun i =>
      { r := e (10 + i * 7) 7, g := e (38 + i * 7) 7, b := e (66 + i * 7) 7, a := 0 }
  else if type = 4 then
    [{ r := e 8 5, g := e 18 5, b := e 28 5, a := e 38 6 },
     { r := e 13 5, g := e 23 5, b := e 33 5, a := e 44 6 }]
  else if type = 5 then
    [{ r := e 8 7, g := e 22 7, b := e 36 7, a := e 50 8 },
     { r := e 15 7, g := e 29 7, b := e 43 7, a := e 58 8 }]
  else if type = 6 then
    [{ r := e 7 7, g := e 21 7, b := e 35 7, a := e 49 7 },
     { r := e 14 7, g := e 28 7, b := e 42 7, a := e 56 7 }]
  else if type = 7 then
    (List.range 4).map fun i =>
      { r := e (14 + i * 5) 5, g := e (34 + i * 5) 5, b := e (54 + i * 5) 5, a := e (74 + i * 5) 5 }
  else List.replicate (numSubsets * 2) { r := 0, g := 0, b := 0, a := 0 }

def bc7PBits (low high : Nat) (type : Nat) : List Nat :=
  if type = 0 then
    [ByteHelper.extract1 high (77 - 64), ByteHelper.extract1 high (78 - 64),
     ByteHelper.extract1 high (79 - 64), ByteHelper.extract1 high (80 - 64),
     ByteHelper.extract1 high (81 - 64), ByteHelper.extract1 high (82 - 64)]
  else if type = 1 then
    [ByteHelper.extract1 high (80 - 64), ByteHelper.extract1 high (81 - 64)]
  else if type = 3 then
    [ByteHelper.extract1 high (94 - 64), ByteHelper.extract1 high (95 - 64),
     ByteHelper.extract1 high (96 - 64), ByteHelper.extract1 high (97 - 64)]
  else if type = 6 then
    [ByteHelper.extract1 low 63, ByteHelper.extract1 high 0]
  else if type = 7 then
    [ByteHelper.extract1 high (94 - 64), ByteHelper.extract1 high (95 - 64),
     ByteHelper.extract1 high (96 - 64), ByteHelper.extract1 high (97 - 64)]
  else []

def bc7HasAlpha (type : Nat) : Bool :=
  type == 4 || type == 5 || type == 6 || type == 7

/-- Precision expansion `(v << (8-p)) | (v >> (p - (8-p)))`. -/
def bc7ExpandChannel (v prec : Nat) : Nat :=
  (v <<< (8 - prec)) ||| (v >>> (prec - (8 - prec)))

/-- `finalizeEndpoints`: p-bit reconstruction (shared per subset for mode
1, per endpoint otherwise) followed by precision expansion, with alpha
forced to 255 for modes without an alpha field. -/
def bc7FinalizeEndpoints (low high : Nat) (type : Nat) (endpoints : List ColorRgba32) :
    List ColorRgba32 :=
  let pBits := bc7PBits low high type
  let endpoints :=
    if type = 0 ∨ type = 1 ∨ type = 3 ∨ type = 6 ∨ type = 7 then
      let shifted := endpoints.map fun ep =>
        { r := ep.r <<< 1, g := ep.g <<< 1, b := ep.b <<< 1, a := ep.a <<< 1 : ColorRgba32 }
      if type = 1 then
        (List.range shifted.length).map fun i =>
          let ep := shifted.getD i ⟨0, 0, 0, 0⟩
          let p := pBits.getD (i / 2) 0
          { ep with r := ep.r ||| p, g := ep.g ||| p, b := ep.b ||| p }
      else
        (List.range shifted.length).map fun i =>
          let ep := shifted.getD i ⟨0, 0, 0, 0⟩
          let p := pBits.getD i 0
          if bc7HasAlpha type then
            { r := ep.r ||| p, g := ep.g ||| p, b := ep.b ||| p, a := ep.a ||| p }
          else
            { ep with r := ep.r ||| p, g := ep.g ||| p, b := ep.b ||| p }
    else endpoints
  let colorPrec := bc7ColorPrecision type
  let alphaPrec := bc7AlphaPrecision type
  let endpoints := endpoints.map fun ep =>
    { r := bc7ExpandChannel ep.r colorPrec
      g := bc7ExpandChannel ep.g colorPrec
      b := bc7ExpandChannel ep.b colorPrec
      a := if 0 < alphaPrec then bc7ExpandChannel ep.a alphaPrec else 255 : ColorRgba32 }
  if bc7HasAlpha type then endpoints
  else endpoints.map fun ep => { ep with a := 255 }

def bc7PartitionIndex (numSubsets partitionSetId pixelIndex : Nat) : Nat :=
  if numSubsets = 1 then 0
  else if numSubsets = 2 then (subsets2PartitionTable.getD partitionSetId []).getD pixelIndex 0
  else (subsets3PartitionTable.getD partitionSetId []).getD pixelIndex 0

def bc7IndexBegin (type bitCount : Nat) (isAlpha : Bool) : Nat :=
  if type = 0 then 83
  else if type = 1 then 82
  else if type = 2 then 99
  else if type = 3 then 98
  else if type = 4 then (if bitCount = 2 then 50 else 81)
  else if type = 5 then (if isAlpha then 97 else 66)
  else if type = 6 then 65
  else if type = 7 then 98
  else 0

def bc7IndexBitCount (numSubsets partitionIndex bitCount pixelIndex : Nat) : Nat :=
  if pixelIndex = 0 then bitCount - 1
  else if numSubsets = 2 then
    (if pixelIndex = subsets2AnchorIndices.getD partitionIndex 0 then bitCount - 1 else bitCount)
  else if numSubsets = 3 then
    (if pixelIndex = subsets3AnchorIndices2.getD partitionIndex 0 ∨
        pixelIndex = subsets3AnchorIndices3.getD partitionIndex 0 then bitCount - 1
     else bitCount)
  else bitCount

def bc7IndexOffset (numSubsets partitionIndex bitCount pixelIndex : Nat) : Nat :=
  if pixelIndex = 0 then 0
  else if numSubsets = 1 then bitCount * pixelIndex - 1
  else if numSubsets = 2 then
    (if pixelIndex ≤ subsets2AnchorIndices.getD partitionIndex 0 then bitCount * pixelIndex - 1
     else bitCount * pixelIndex - 2)
  else if numSubsets = 3 then
    let anchor2 := subsets3AnchorIndices2.getD partitionIndex 0
    let anchor3 := subsets3AnchorIndices3.getD partitionIndex 0
    if pixelIndex ≤ anchor2 ∧ pixelIndex ≤ anchor3 then bitCount * pixelIndex - 1
    else if anchor2 < pixelIndex ∧ anchor3 < pixelIndex then bitCount * pixelIndex - 3
    else bitCount * pixelIndex - 2
  else 0

def bc7ColorIndex (low high type numSubsets partitionIndex bitCount pixelIndex : Nat) : Nat :=
  ByteHelper.extractU low high
    (bc7IndexBegin type bitCount false + bc7IndexOffset numSubsets partitionIndex bitCount pixelIndex)
    (bc7IndexBitCount numSubsets partitionIndex bitCount pixelIndex)

def bc7AlphaIndex (low high type numSubsets partitionIndex bitCount pixelIndex : Nat) : Nat :=
  if bitCount = 0 then 0
  else ByteHelper.extractU low high
    (bc7IndexBegin type bitCount true + bc7IndexOffset numSubsets partitionIndex bitCount pixelIndex)
    (bc7IndexBitCount numSubsets partitionIndex bitCount pixelIndex)

def bc7SwapChannels (color : ColorRgba32) (rotation : Nat) : ColorRgba32 :=
  if rotation = 1 then { r := color.a, g := color.g, b := color.b, a := color.r }
  else if rotation = 2 then { r := color.r, g := color.a, b := color.b, a := color.g }
  else if rotation = 3 then { r := color.r, g := color.g, b := color.a, a := color.b }
  else color

/-- `Bc7Block.decode()`: 64 output bytes (16 RGBA texels), with the
reserved type filled with opaque magenta. -/
def bc7DecodeBlock (low high : Nat) : List Nat :=
  let type := bc7GetType low
  if type = 8 then
    (List.range 16).flatMap fun _ => [255, 0, 255, 255]
  else
    let numSubsets := bc7NumSubsets type
    let partitionSetId := bc7PartitionSetId low type
    let rotation := bc7RotationBits low type
    let endpoints := bc7FinalizeEndpoints low high type (bc7RawEndpoints low high type numSubsets)
    let colorBitCount := bc7ColorIndexBitCount low type
    let alphaBitCount := bc7AlphaIndexBitCount low type
    (List.range 16).flatMap fun i =>
      let subsetIndex := bc7PartitionIndex numSubsets partitionSetId i
      let ep0 := endpoints.getD (2 * subsetIndex) ⟨0, 0, 0, 0⟩
      let ep1 := endpoints.getD (2 * subsetIndex + 1) ⟨0, 0, 0, 0⟩
      let colorIndex := bc7ColorIndex low high type numSubsets partitionSetId colorBitCount i
      let alphaIndex := bc7AlphaIndex low high type numSubsets partitionSetId alphaBitCount i
      let color : ColorRgba32 :=
        { r := interpolateByte ep0.r ep1.r colorIndex colorBitCount
          g := interpolateByte ep0.g ep1.g colorIndex colorBitCount
          b := interpolateByte ep0.b ep1.b colorIndex colorBitCount
          a := interpolateByte ep0.a ep1.a alphaIndex
                 (if alphaBitCount = 0 then colorBitCount else alphaBitCount) }
      let color := if 0 < rotation then bc7SwapChannels color rotation else color
      [color.r, color.g, color.b, color.a]

/-- The byte stores performed by `decodeBC7`. -/
def decodeBC7Writes (data : List Nat) (width height : Nat) : List (Nat × Nat) :=
  bcnWrites width height fun yb xb y x =>
    let offset := 16 * (yb * ((width + 3) / 4) + xb)
    let decoded := bc7DecodeBlock (u64At data offset) (u64At data (offset + 8))
    let srcIdx := (y * 4 + x) * 4
    let d := ((yb * 4 + y) * width + (xb * 4 + x)) * 4
    [(d, decoded.getD srcIdx 0), (d + 1, decoded.getD (srcIdx + 1) 0),
     (d + 2, decoded.getD (srcIdx + 2) 0), (d + 3, decoded.getD (srcIdx + 3) 0)]

/-- `decodeBC7(imageData, width, height)`. -/
def decodeBC7 (data : List Nat) (width height : Nat) : Except String (List Nat) :=
  if 16 * (((width + 3) / 4) * ((height + 3) / 4)) ≤ data.length then
    .ok (applyWrites (List.replicate (width * height * 4) 0) (decodeBC7Writes data width height))
  else .error "RangeError"

/-! ## Claim C1 (BC7 reserved mode sentinel fill) -/

/-- When the low byte of the low word is zero, `getType` finds no set bit
among bits 0-7 and reports the reserved type 8. -/
theorem bc7GetType_reserved (low : Nat) (h : low % 256 = 0) : bc7GetType low = 8 := by
  have key : ∀ k, k < 256 → low &&& k = 0 := by
    intro k hk
    apply Nat.eq_of_testBit_eq
    intro i
    simp only [Nat.testBit_and, Nat.zero_testBit]
    by_cases hi : i < 8
    · have hlow : low.testBit i = false := by
        obtain ⟨M, hM⟩ : ∃ M, low = M * 256 := ⟨low / 256, by omega⟩
        subst hM
        have hshift : M * 256 = M <<< 8 := by rw [Nat.shiftLeft_eq]
        rw [hshift, Nat.testBit_shiftLeft]
        have h8 : ¬ (8 ≤ i) := by omega
        simp [h8]
      simp [hlow]
    · have hk2 : k.testBit i = false := by
        apply Nat.testBit_lt_two_pow
        calc k < 256 := hk
          _ = 2 ^ 8 := by norm_num
          _ ≤ 2 ^ i := Nat.pow_le_pow_right (by omega) (by omega)
      simp [hk2]
  unfold bc7GetType
  rw [key 1 (by omega), key 2 (by omega), key 4 (by omega), key 8 (by omega),
    key 16 (by omega), key 32 (by omega), key 64 (by omega), key 128 (by omega)]
  rfl

/-- Claim C1: a 16-byte BC7 block whose first byte has no bit set decodes
to 16 texels of opaque magenta, and a 4x4 image made of that single block
decodes to 64 bytes repeating `255, 0, 255, 255` with no error. -/
theorem c1_theorem (block : List Nat) (hlen : block.length = 16)
    (h0 : block.getD 0 0 = 0) :
    bc7DecodeBlock (u64At block 0) (u64At block 8) =
      List.flatten (List.replicate 16 [255, 0, 255, 255]) ∧
    decodeBC7 block 4 4 = .ok (List.flatten (List.replicate 16 [255, 0, 255, 255])) := by
  have hmod : u64At block 0 % 256 = 0 := by
    unfold u64At
    rw [h0]
    omega
  have htype := bc7GetType_reserved _ hmod
  have hblock : bc7DecodeBlock (u64At block 0) (u64At block 8) =
      List.flatten (List.replicate 16 [255, 0, 255, 255]) := by
    unfold bc7DecodeBlock
    rw [htype]
    rfl
  refine ⟨hblock, ?_⟩
  unfold decodeBC7
  rw [if_pos (by rw [hlen])]
  refine congrArg Except.ok ?_
  have hw : decodeBC7Writes block 4 4 =
      (List.range 4).flatMap fun y => (List.range 4).flatMap fun x =>
        let decoded := List.flatten (List.replicate 16 ([255, 0, 255, 255] : List Nat))
        let srcIdx := (y * 4 + x) * 4
        [(srcIdx, decoded.getD srcIdx 0), (srcIdx + 1, decoded.getD (srcIdx + 1) 0),
         (srcIdx + 2, decoded.getD (srcIdx + 2) 0), (srcIdx + 3, decoded.getD (srcIdx + 3) 0)] := by
    simp [decodeBC7Writes, bcnWrites, hblock, List.range_succ]
  rw [hw]
  decide

/-- Witness for `c1_theorem` at the all-zero block. -/
theorem c1_witness :
    decodeBC7 (List.replicate 16 0) 4 4 =
      .ok (List.flatten (List.replicate 16 [255, 0, 255, 255])) :=
  (c1_theorem (List.replicate 16 0) (by decide) (by decide)).2

/-! ## Claim C6 (128-bit field extraction) -/

theorem ByteHelper.extract_eq (s i bc : Nat) :
    ByteHelper.extract s i bc = (s / 2 ^ i) % 2 ^ bc := by
  unfold ByteHelper.extract
  rw [Nat.shiftRight_eq_div_pow, Nat.one_shiftLeft, Nat.and_pow_two_sub_one_eq_mod]

/-- Splitting the 128-bit value at bit `i <= 64`: the divide distributes
over the two words. -/
theorem bc7_div_split (low high i : Nat) (h : i ≤ 64) :
    (high * 2 ^ 64 + low) / 2 ^ i = low / 2 ^ i + high * 2 ^ (64 - i) := by
  have e1 : high * 2 ^ 64 + low = low + (high * 2 ^ (64 - i)) * 2 ^ i := by
    rw [show (2:Nat) ^ 64 = 2 ^ (64 - i) * 2 ^ i from by rw [← pow_add]; congr 1; omega]
    ring
  rw [e1, Nat.add_mul_div_right _ _ (Nat.two_pow_pos i)]

/-- Dropping high bits beyond the field width. -/
theorem bc7_mod_drop (a b n m : Nat) (hnm : m ≤ n) :
    (a + b * 2 ^ n) % 2 ^ m = a % 2 ^ m := by
  rw [show (2:Nat) ^ n = 2 ^ (n - m) * 2 ^ m from by rw [← pow_add]; congr 1; omega,
    ← Nat.mul_assoc, Nat.add_mul_mod_self_right]

/-- Splitting a modulus `2 ^ m = 2 ^ n * 2 ^ (m - n)` around a value
`a < 2 ^ n`. -/
theorem bc7_mod_decomp (a b n m : Nat) (ha : a < 2 ^ n) (hnm : n ≤ m) :
    (a + b * 2 ^ n) % 2 ^ m = a + (b % 2 ^ (m - n)) * 2 ^ n := by
  have hb := Nat.div_add_mod b (2 ^ (m - n))
  have e1 : a + b * 2 ^ n = (a + (b % 2 ^ (m - n)) * 2 ^ n) + (b / 2 ^ (m - n)) * 2 ^ m := by
    rw [show (2:Nat) ^ m = 2 ^ (m - n) * 2 ^ n from by rw [← pow_add]; congr 1; omega]
    calc a + b * 2 ^ n
        = a + (2 ^ (m - n) * (b / 2 ^ (m - n)) + b % 2 ^ (m - n)) * 2 ^ n := by rw [hb]
      _ = (a + (b % 2 ^ (m - n)) * 2 ^ n) + (b / 2 ^ (m - n)) * (2 ^ (m - n) * 2 ^ n) := by ring
  rw [e1, Nat.add_mul_mod_self_right]
  apply Nat.mod_eq_of_lt
  have h1 : b % 2 ^ (m - n) < 2 ^ (m - n) := Nat.mod_lt _ (Nat.two_pow_pos _)
  calc a + (b % 2 ^ (m - n)) * 2 ^ n
      < 2 ^ n + (b % 2 ^ (m - n)) * 2 ^ n := by omega
    _ = ((b % 2 ^ (m - n)) + 1) * 2 ^ n := by ring
    _ ≤ 2 ^ (m - n) * 2 ^ n := Nat.mul_le_mul_right _ (by omega)
    _ = 2 ^ m := by rw [← pow_add]; congr 1; omega

theorem jsToInt32_eq_self (x : Int) (h0 : 0 ≤ x) (h1 : x < 2 ^ 31) : jsToInt32 x = x := by
  unfold jsToInt32
  rw [Int.emod_eq_of_lt (by omega) (by omega)]
  omega

theorem jsOr32_of_small (a b : Nat) (ha : a < 2 ^ 31) (hb : b < 2 ^ 31) :
    jsOr32 (a : Int) (b : Int) = ((a ||| b : Nat) : Int) := by
  have hpow : ((2:Int) ^ 32) = ((2 ^ 32 : Nat) : Int) := by norm_num
  have h1 : ((a : Int) % 2 ^ 32).toNat = a := by
    rw [Int.emod_eq_of_lt (by omega) (by rw [hpow]; exact_mod_cast by omega : (a : Int) < 2 ^ 32)]
    omega
  have h2 : ((b : Int) % 2 ^ 32).toNat = b := by
    rw [Int.emod_eq_of_lt (by omega) (by rw [hpow]; exact_mod_cast by omega : (b : Int) < 2 ^ 32)]
    omega
  unfold jsOr32 jsToUInt32
  rw [h1, h2]
  apply jsToInt32_eq_self
  · exact_mod_cast Nat.zero_le _
  · have : (a ||| b) < 2 ^ 31 := Nat.or_lt_two_pow ha hb
    exact_mod_cast this

/-- Claim C6, amended: under the claimed hypotheses (`1 <= bitCount`,
`index + bitCount <= 128`, `bitCount <= 32`) together with the extra
condition that the field stays within one 64-bit word or `bitCount <= 31`,
`extractFrom128` returns exactly bits `[index, index + bitCount)` of
`high * 2^64 + low`.  The extra condition is forced by the counterexample:
a boundary-crossing 32-bit field is recombined with the JavaScript 32-bit
signed shift-or, which can wrap to a negative value. -/
theorem c6_amended (low high index bitCount : Nat)
    (hlow : low < 2 ^ 64) (hhigh : high < 2 ^ 64)
    (hbc1 : 1 ≤ bitCount) (hrange : index + bitCount ≤ 128) (hbc32 : bitCount ≤ 32)
    (hside : index + bitCount ≤ 64 ∨ 64 ≤ index ∨ bitCount ≤ 31) :
    ByteHelper.extractFrom128 low high index bitCount =
      (((high * 2 ^ 64 + low) / 2 ^ index) % 2 ^ bitCount : Nat) := by
  simp only [ByteHelper.extractFrom128]
  by_cases hA : index + bitCount ≤ 64
  · rw [if_pos hA, ByteHelper.extract_eq]
    norm_cast
    rw [bc7_div_split low high index (by omega), bc7_mod_drop _ _ _ _ (by omega)]
  · rw [if_neg hA]
    by_cases hB : 64 ≤ index
    · rw [if_pos hB, ByteHelper.extract_eq]
      norm_cast
      have e1 : (high * 2 ^ 64 + low) / 2 ^ index = high / 2 ^ (index - 64) := by
        rw [show (2:Nat) ^ index = 2 ^ 64 * 2 ^ (index - 64) from by rw [← pow_add]; congr 1; omega]
        rw [← Nat.div_div_eq_div_mul]
        congr 1
        rw [Nat.add_comm, Nat.add_mul_div_right _ _ (Nat.two_pow_pos 64),
          Nat.div_eq_of_lt hlow]
        omega
      rw [e1]
    · rw [if_neg hB]
      have hbc31 : bitCount ≤ 31 := by rcases hside with h | h | h <;> omega
      have hlbc1 : 1 ≤ 64 - index := by omega
      have hlbclt : 64 - index < bitCount := by omega
      have hlbc30 : 64 - index ≤ 30 := by omega
      have hldiv : low / 2 ^ index < 2 ^ (64 - index) := by
        rw [Nat.div_lt_iff_lt_mul (Nat.two_pow_pos index)]
        calc low < 2 ^ 64 := hlow
          _ = 2 ^ (64 - index) * 2 ^ index := by rw [← pow_add]; congr 1; omega
      have hlv : ByteHelper.extract low index (64 - index) = low / 2 ^ index := by
        rw [ByteHelper.extract_eq]
        exact Nat.mod_eq_of_lt hldiv
      have hhv : ByteHelper.extract high 0 (bitCount - (64 - index)) =
          high % 2 ^ (bitCount - (64 - index)) := by
        rw [ByteHelper.extract_eq, pow_zero, Nat.div_one]
      rw [hlv, hhv]
      have hprod : (high % 2 ^ (bitCount - (64 - index))) * 2 ^ (64 - index) < 2 ^ 31 := by
        calc (high % 2 ^ (bitCount - (64 - index))) * 2 ^ (64 - index)
            < 2 ^ (bitCount - (64 - index)) * 2 ^ (64 - index) :=
              (Nat.mul_lt_mul_right (Nat.two_pow_pos _)).mpr (Nat.mod_lt _ (Nat.two_pow_pos _))
          _ = 2 ^ bitCount := by rw [← pow_add]; congr 1; omega
          _ ≤ 2 ^ 31 := Nat.pow_le_pow_right (by omega) hbc31
      have hshl : jsShl32 ((high % 2 ^ (bitCount - (64 - index)) : Nat) : Int) (64 - index) =
          (((high % 2 ^ (bitCount - (64 - index))) * 2 ^ (64 - index) : Nat) : Int) := by
        unfold jsShl32
        rw [Nat.mod_eq_of_lt (show 64 - index < 32 by omega)]
        rw [show ((high % 2 ^ (bitCount - (64 - index)) : Nat) : Int) * 2 ^ (64 - index) =
          (((high % 2 ^ (bitCount - (64 - index))) * 2 ^ (64 - index) : Nat) : Int) from by push_cast; ring]
        exact jsToInt32_eq_self _ (by positivity) (by exact_mod_cast hprod)
      rw [hshl]
      have hldiv31 : low / 2 ^ index < 2 ^ 31 :=
        lt_of_lt_of_le hldiv (Nat.pow_le_pow_right (by omega) (by omega))
      rw [jsOr32_of_small _ _ hldiv31 hprod]
      norm_cast
      have hor : (low / 2 ^ index) ||| ((high % 2 ^ (bitCount - (64 - index))) * 2 ^ (64 - index)) =
          low / 2 ^ index + (high % 2 ^ (bitCount - (64 - index))) * 2 ^ (64 - index) := by
        rw [Nat.lor_comm, Nat.mul_comm]
        rw [← Nat.mul_add_lt_is_or hldiv]
        ring
      rw [hor, bc7_div_split low high index (by omega),
        bc7_mod_decomp _ _ _ _ hldiv (by omega)]

/-- Claim C6, counterexample.  At `low = 2^63`, `high = 2^30`,
`index = 63`, `bitCount = 32` all the claimed hypotheses hold, yet the
boundary branch computes `1 | (2^30 << 1)` with JavaScript 32-bit
operators, yielding `-2147483647` instead of the true field value
`2^31 + 1 = 2147483649`. -/
theorem c6_counterexample :
    (1 ≤ 32 ∧ 63 + 32 ≤ 128 ∧ 32 ≤ 32 ∧ 2 ^ 63 < 2 ^ 64 ∧ 2 ^ 30 < 2 ^ 64) ∧
    ByteHelper.extractFrom128 (2 ^ 63) (2 ^ 30) 63 32 = -2147483647 ∧
    (((2 ^ 30 * 2 ^ 64 + 2 ^ 63) / 2 ^ 63) % 2 ^ 32 : Nat) = 2147483649 := by
  refine ⟨by norm_num, by decide, by decide⟩

/-- Witness for `c6_amended` at concrete inputs: a low-word field and a
2-bit field crossing the 64-bit boundary. -/
theorem c6_witness :
    ByteHelper.extractFrom128 6 0 1 2 = (((0 * 2 ^ 64 + 6) / 2 ^ 1) % 2 ^ 2 : Nat) ∧
    ByteHelper.extractFrom128 (2 ^ 63) 1 63 2 =
      (((1 * 2 ^ 64 + 2 ^ 63) / 2 ^ 63) % 2 ^ 2 : Nat) :=
  ⟨c6_amended 6 0 1 2 (by norm_num) (by norm_num) (by norm_num) (by norm_num)
      (by norm_num) (Or.inl (by norm_num)),
   c6_amended (2 ^ 63) 1 63 2 (by norm_num) (by norm_num) (by norm_num) (by norm_num)
      (by norm_num) (Or.inr (Or.inr (by norm_num)))⟩

/-! ## Claim C9 (output coverage of the BCn decoders) -/

theorem countP_flatMap {α β : Type} (p : β → Bool) (l : List α) (f : α → List β) :
    (l.flatMap f).countP p = (l.map fun a => (f a).countP p).sum := by
  induction l with
  | nil => rfl
  | cons a t ih => simp [List.countP_append, ih]

theorem applyWrites_length (ws : List (Nat × Nat)) (init : List Nat) :
    (applyWrites init ws).length = init.length := by
  induction ws generalizing init with
  | nil => rfl
  | cons a t ih =>
    show (applyWrites (init.set a.1 a.2) t).length = init.length
    rw [ih]
    exact List.length_set ..

theorem sum_map_range_congr (n : Nat) (f g : Nat → Nat) (h : ∀ i, i < n → f i = g i) :
    ((List.range n).map f).sum = ((List.range n).map g).sum := by
  induction n with
  | zero => rfl
  | succ k ih =>
    rw [List.range_succ]
    simp only [List.map_append, List.sum_append, List.map_cons, List.map_nil, List.sum_cons,
      List.sum_nil]
    rw [ih (fun i hi => h i (by omega)), h k (by omega)]

theorem sum_map_range_ite (n k c : Nat) :
    ((List.range n).map fun i => if i = k then c else 0).sum = if k < n then c else 0 := by
  induction n with
  | zero => simp
  | succ m ih =>
    rw [List.range_succ]
    simp only [List.map_append, List.sum_append, List.map_cons, List.map_nil, List.sum_cons,
      List.sum_nil, ih]
    by_cases h1 : k < m
    · rw [if_pos h1, if_neg (by omega : ¬ m = k), if_pos (by omega)]
      omega
    · by_cases h2 : m = k
      · rw [if_neg h1, if_pos h2, if_pos (by omega)]
        omega
      · rw [if_neg h1, if_neg h2, if_neg (by omega)]
        omega

theorem sum_map_range_ite_pull (n : Nat) (A : Prop) [Decidable A] (f : Nat → Nat) :
    ((List.range n).map fun i => if A then f i else 0).sum =
      if A then ((List.range n).map f).sum else 0 := by
  by_cases hA : A <;> simp [hA]

theorem ite_conj4 (P1 P2 P3 P4 : Prop) [Decidable P1] [Decidable P2] [Decidable P3]
    [Decidable P4] (v : Nat) :
    (if P1 ∧ P2 ∧ P3 ∧ P4 then v else 0) =
      (if P1 then (if P2 then (if P3 then (if P4 then v else 0) else 0) else 0) else 0) := by
  by_cases h1 : P1 <;> by_cases h2 : P2 <;> by_cases h3 : P3 <;> by_cases h4 : P4 <;>
    simp [h1, h2, h3, h4]

theorem countP_add_cancel (offs : List Nat) (D r : Nat) :
    (offs.countP fun o => D + o == D + r) = offs.count r := by
  rw [List.count_eq_countP]
  induction offs with
  | nil => rfl
  | cons a t ih =>
    simp only [List.countP_cons, ih]
    congr 1
    by_cases h : a = r
    · simp [h]
    · have hne : ¬ (D + a = D + r) := by omega
      simp [h, hne]

/-- Each output byte position below `width * height * 4` receives exactly
`offs.count (p % 4)` stores from the shared block/texel loop, where `offs`
is the per-texel list of byte offsets a decoder stores. -/
theorem bcnWrites_count (width height : Nat) (hw : 0 < width)
    (tex : Nat → Nat → Nat → Nat → List (Nat × Nat)) (offs : List Nat)
    (hoffs : ∀ yb xb y x, (tex yb xb y x).map Prod.fst =
      offs.map fun o => ((yb * 4 + y) * width + (xb * 4 + x)) * 4 + o)
    (hoffs4 : ∀ o ∈ offs, o < 4)
    (p : Nat) (hp : p < width * height * 4) :
    ((bcnWrites width height tex).map Prod.fst).count p = offs.count (p % 4) := by
  have hq : p / 4 < width * height := by omega
  obtain ⟨PY, hPY⟩ : ∃ t, p / 4 / width = t := ⟨_, rfl⟩
  obtain ⟨PX, hPX⟩ : ∃ t, p / 4 % width = t := ⟨_, rfl⟩
  have hpy : PY < height := by
    rw [← hPY, Nat.div_lt_iff_lt_mul hw, Nat.mul_comm]
    exact hq
  have hpx : PX < width := by
    rw [← hPX]
    exact Nat.mod_lt _ hw
  have hrel : width * PY + PX = p / 4 := by
    rw [← hPY, ← hPX]
    exact Nat.div_add_mod (p / 4) width
  rw [List.count_eq_countP]
  unfold bcnWrites
  simp only [List.map_flatMap, countP_flatMap]
  have hstep : ∀ yb xb y x, y < 4 → x < 4 →
      List.countP (fun v => v == p)
        (List.map Prod.fst
          (if xb * 4 + x < width ∧ yb * 4 + y < height then tex yb xb y x else [])) =
      if yb = PY / 4 ∧ xb = PX / 4 ∧ y = PY % 4 ∧ x = PX % 4 then offs.count (p % 4)
      else 0 := by
    intro yb xb y x hy hx
    by_cases hc : xb * 4 + x < width ∧ yb * 4 + y < height
    · rw [if_pos hc, hoffs, List.countP_map]
      by_cases ht : yb = PY / 4 ∧ xb = PX / 4 ∧ y = PY % 4 ∧ x = PX % 4
      · rw [if_pos ht]
        obtain ⟨h1, h2, h3, h4⟩ := ht
        subst h1
        subst h2
        subst h3
        subst h4
        have hD : ((PY / 4 * 4 + PY % 4) * width + (PX / 4 * 4 + PX % 4)) * 4 = p / 4 * 4 := by
          have e1 : PY / 4 * 4 + PY % 4 = PY := by omega
          have e2 : PX / 4 * 4 + PX % 4 = PX := by omega
          rw [e1, e2, Nat.mul_comm PY width, hrel]
        have hfun : ((fun v => v == p) ∘ fun o =>
            ((PY / 4 * 4 + PY % 4) * width + (PX / 4 * 4 + PX % 4)) * 4 + o) =
            fun o => p / 4 * 4 + o == p / 4 * 4 + p % 4 := by
          funext o
          simp only [Function.comp_apply]
          rw [hD]
          congr 1
          omega
        rw [hfun, countP_add_cancel]
      · rw [if_neg ht]
        rw [List.countP_eq_zero]
        intro o ho
        simp only [Function.comp_apply, beq_iff_eq]
        intro heq
        apply ht
        have ho4 := hoffs4 o ho
        obtain ⟨K, hKdef⟩ : ∃ K, (yb * 4 + y) * width + (xb * 4 + x) = K := ⟨_, rfl⟩
        rw [hKdef] at heq
        have hp4 : p / 4 = K ∧ p % 4 = o := by omega
        have hKd : K / width = yb * 4 + y := by
          rw [← hKdef, Nat.mul_comm (yb * 4 + y) width, Nat.mul_add_div hw,
            Nat.div_eq_of_lt hc.1]
          omega
        have hKm : K % width = xb * 4 + x := by
          rw [← hKdef, Nat.mul_comm (yb * 4 + y) width, Nat.mul_add_mod]
          exact Nat.mod_eq_of_lt hc.1
        have hKPY : PY = yb * 4 + y := by
          rw [← hKd]
          have hK2 : K = width * PY + PX := by omega
          rw [hK2, Nat.mul_add_div hw, Nat.div_eq_of_lt hpx]
          omega
        have hKPX : PX = xb * 4 + x := by
          rw [← hKm]
          have hK2 : K = width * PY + PX := by omega
          rw [hK2, Nat.mul_add_mod]
          exact (Nat.mod_eq_of_lt hpx).symm
        refine ⟨by omega, by omega, by omega, by omega⟩
    · rw [if_neg hc]
      have hnt : ¬ (yb = PY / 4 ∧ xb = PX / 4 ∧ y = PY % 4 ∧ x = PX % 4) := by
        rintro ⟨h1, h2, h3, h4⟩
        apply hc
        subst h1
        subst h2
        subst h3
        subst h4
        constructor
        · omega
        · omega
      rw [if_neg hnt]
      simp
  have hstep2 : ∀ yb xb y x, y < 4 → x < 4 →
      List.countP (fun v => v == p)
        (List.map Prod.fst
          (if xb * 4 + x < width ∧ yb * 4 + y < height then tex yb xb y x else [])) =
      if yb = PY / 4 then (if xb = PX / 4 then (if y = PY % 4 then
        (if x = PX % 4 then offs.count (p % 4) else 0) else 0) else 0) else 0 := by
    intro yb xb y x hy hx
    rw [hstep yb xb y x hy hx, ite_conj4]
  have h4 : ∀ yb xb y, y < 4 →
      ((List.range 4).map fun x =>
        List.countP (fun v => v == p)
          (List.map Prod.fst
            (if xb * 4 + x < width ∧ yb * 4 + y < height then tex yb xb y x else []))).sum =
      if yb = PY / 4 then (if xb = PX / 4 then (if y = PY % 4 then offs.count (p % 4)
        else 0) else 0) else 0 := by
    intro yb xb y hy
    rw [sum_map_range_congr 4 _ _ (fun x hx => hstep2 yb xb y x hy hx)]
    rw [sum_map_range_ite_pull, sum_map_range_ite_pull, sum_map_range_ite_pull,
      sum_map_range_ite, if_pos (show PX % 4 < 4 by omega)]
  have h3 : ∀ yb xb,
      ((List.range 4).map fun y => ((List.range 4).map fun x =>
        List.countP (fun v => v == p)
          (List.map Prod.fst
            (if xb * 4 + x < width ∧ yb * 4 + y < height then tex yb xb y x else []))).sum).sum =
      if yb = PY / 4 then (if xb = PX / 4 then offs.count (p % 4) else 0) else 0 := by
    intro yb xb
    rw [sum_map_range_congr 4 _ _ (fun y hy => h4 yb xb y hy)]
    rw [sum_map_range_ite_pull, sum_map_range_ite_pull, sum_map_range_ite,
      if_pos (show PY % 4 < 4 by omega)]
  have h2 : ∀ yb,
      ((List.range ((width + 3) / 4)).map fun xb => ((List.range 4).map fun y =>
        ((List.range 4).map fun x =>
          List.countP (fun v => v == p)
            (List.map Prod.fst
              (if xb * 4 + x < width ∧ yb * 4 + y < height then tex yb xb y x else []))).sum).sum).sum =
      if yb = PY / 4 then offs.count (p % 4) else 0 := by
    intro yb
    rw [sum_map_range_congr _ _ _ (fun xb _ => h3 yb xb)]
    rw [sum_map_range_ite_pull, sum_map_range_ite,
      if_pos (show PX / 4 < (width + 3) / 4 by omega)]
  rw [sum_map_range_congr _ _ _ (fun yb _ => h2 yb)]
  rw [sum_map_range_ite, if_pos (show PY / 4 < (height + 3) / 4 by omega)]

theorem count_offsets_bc1 (m : Nat) (hm : m < 4) : ([0, 1, 2, 3] : List Nat).count m = 1 := by
  interval_cases m <;> rfl

theorem count_offsets_bc4 (ch m : Nat) (hch : ch < 4) (hm : m < 4) :
    ([0, 1, 2, 3, ch] : List Nat).count m = if m = ch then 2 else 1 := by
  interval_cases ch <;> interval_cases m <;> decide

/-- Claim C9, amended: for every `width, height >= 1` and inputs holding
all `ceil(width/4) * ceil(height/4)` blocks, `decodeBC1`, `decodeBC4` and
`decodeBC7` succeed with a buffer of exactly `width * height * 4` bytes;
every output byte position is stored exactly once by `decodeBC1` and
`decodeBC7`, while `decodeBC4` stores each texel's selected-channel byte
twice (the default 0, then the decoded component) and every other byte
exactly once. -/
theorem c9_amended (width height : Nat) (hw : 1 ≤ width) (hh : 1 ≤ height)
    (data1 data4 data7 : List Nat) (useAlpha : Bool) (channel : Bc4Channel)
    (h1 : 8 * (((width + 3) / 4) * ((height + 3) / 4)) ≤ data1.length)
    (h4 : 8 * (((width + 3) / 4) * ((height + 3) / 4)) ≤ data4.length)
    (h7 : 16 * (((width + 3) / 4) * ((height + 3) / 4)) ≤ data7.length) :
    (∃ out, decodeBC1 data1 width height useAlpha = .ok out ∧
      out.length = width * height * 4) ∧
    (∃ out, decodeBC7 data7 width height = .ok out ∧ out.length = width * height * 4) ∧
    (∃ out, decodeBC4 data4 width height channel = .ok out ∧
      out.length = width * height * 4) ∧
    (∀ p, p < width * height * 4 →
      ((decodeBC1Writes data1 width height useAlpha).map Prod.fst).count p = 1) ∧
    (∀ p, p < width * height * 4 →
      ((decodeBC7Writes data7 width height).map Prod.fst).count p = 1) ∧
    (∀ p, p < width * height * 4 →
      ((decodeBC4Writes data4 width height channel).map Prod.fst).count p =
        if p % 4 = channel.toIdx then 2 else 1) := by
  have hch : channel.toIdx < 4 := by cases channel <;> decide
  refine ⟨?_, ?_, ?_, ?_, ?_, ?_⟩
  · exact ⟨applyWrites (List.replicate (width * height * 4) 0)
      (decodeBC1Writes data1 width height useAlpha),
      by unfold decodeBC1; rw [if_pos h1],
      by rw [applyWrites_length, List.length_replicate]⟩
  · exact ⟨applyWrites (List.replicate (width * height * 4) 0)
      (decodeBC7Writes data7 width height),
      by unfold decodeBC7; rw [if_pos h7],
      by rw [applyWrites_length, List.length_replicate]⟩
  · exact ⟨applyWrites (List.replicate (width * height * 4) 0)
      (decodeBC4Writes data4 width height channel),
      by unfold decodeBC4; rw [if_pos h4],
      by rw [applyWrites_length, List.length_replicate]⟩
  · intro p hp
    have hcount : ((decodeBC1Writes data1 width height useAlpha).map Prod.fst).count p =
        ([0, 1, 2, 3] : List Nat).count (p % 4) :=
      bcnWrites_count width height (by omega) _ [0, 1, 2, 3]
        (fun yb xb y x => by simp) (fun o ho => by simp at ho; omega) p hp
    rw [hcount]
    exact count_offsets_bc1 _ (by omega)
  · intro p hp
    have hcount : ((decodeBC7Writes data7 width height).map Prod.fst).count p =
        ([0, 1, 2, 3] : List Nat).count (p % 4) :=
      bcnWrites_count width height (by omega) _ [0, 1, 2, 3]
        (fun yb xb y x => by simp) (fun o ho => by simp at ho; omega) p hp
    rw [hcount]
    exact count_offsets_bc1 _ (by omega)
  · intro p hp
    have hcount : ((decodeBC4Writes data4 width height channel).map Prod.fst).count p =
        ([0, 1, 2, 3, channel.toIdx] : List Nat).count (p % 4) :=
      bcnWrites_count width height (by omega) _ [0, 1, 2, 3, channel.toIdx]
        (fun yb xb y x => by simp)
        (fun o ho => by simp at ho; rcases ho with h | h | h | h | h <;> omega) p hp
    rw [hcount]
    exact count_offsets_bc4 channel.toIdx (p % 4) hch (by omega)

/-- Claim C9, counterexample.  The claim says no output byte is written
more than once; `decodeBC4` stores the selected channel's byte of each
texel twice (the default 0, then the decoded component), so for a 1x1
red-channel decode, byte 0 receives two stores. -/
theorem c9_counterexample :
    (0 : Nat) < 1 * 1 * 4 ∧
    ((decodeBC4Writes (List.replicate 8 0) 1 1 .r).map Prod.fst).count 0 = 2 := by
  exact ⟨by decide, by decide⟩

/-- Witness for `c9_amended` at 1x1 images over concrete 8- and 16-byte
inputs. -/
theorem c9_witness :
    (∃ out, decodeBC1 (List.replicate 8 0) 1 1 false = .ok out ∧ out.length = 1 * 1 * 4) ∧
    ((decodeBC1Writes (List.replicate 8 0) 1 1 false).map Prod.fst).count 0 = 1 ∧
    ((decodeBC7Writes (List.replicate 16 0) 1 1).map Prod.fst).count 3 = 1 ∧
    ((decodeBC4Writes (List.replicate 8 0) 1 1 .g).map Prod.fst).count 1 =
      if 1 % 4 = Bc4Channel.g.toIdx then 2 else 1 := by
  obtain ⟨hA, hB, hC, hD, hE, hF⟩ := c9_amended 1 1 (by decide) (by decide)
    (List.replicate 8 0) (List.replicate 8 0) (List.replicate 16 0) false .g
    (by decide) (by decide) (by decide)
  exact ⟨hA, hD 0 (by decide), hE 3 (by decide), hF 1 (by decide)⟩
